import Mathlib

/-!
Verification development for the tau repository (ParticleHealth/tau).

The slog package (latest version of slog.go, kept in the repository history)
is embedded shallowly: Go pointer/map reference semantics are made explicit
through a heap-style state whose addresses are natural numbers.  Entries,
string maps (map[string]string), field maps (Fields), and Operation objects
live in separate address spaces.  The Logger's json.Encoder sink is modeled
as the list of complete emitted records (the mutex in Logger.log serializes
the encode-and-write block, so each emission appends one whole record); a
separate interleaving model below treats the byte-level output discipline.
Runtime facilities (runtime.Caller, runtime.Callers, runtime.CallersFrames)
are modeled by an explicit environment value passed to the operations that
consult them.
-/

namespace Tau

namespace Slog

/-- Detail values held in Fields (Go map[string]interface of values).  The
bad constructor models a value that encoding/json cannot marshal, such as a
function, a channel or a cyclic value. -/
inductive Value where
  | str (s : String)
  | int (n : Int)
  | bool (b : Bool)
  | bad
deriving DecidableEq

/-- json.Marshal succeeds on a value exactly when it is not of an
unsupported kind. -/
def Value.encodable : Value → Bool
  | .bad => false
  | _ => true

/-- Models fmt.Sprint applied to one operand, as WithLabels does to coerce
label values to strings. -/
def fmtSprint : Value → String
  | .str s => s
  | .int n => toString n
  | .bool b => if b then "true" else "false"
  | .bad => "%!v(PANIC=unsupported)"

/-- Severity constants from slog.go, serialized as their literal names. -/
def severityDebug : String := "DEBUG"

def severityInfo : String := "INFO"

def severityNotice : String := "NOTICE"

def severityWarn : String := "WARNING"

def severityError : String := "ERROR"

def severityCritical : String := "CRITICAL"

def severityAlert : String := "ALERT"

def severityEmergency : String := "EMERGENCY"

/-- SourceLocation that originated the log call (slog.go). -/
structure SourceLocation where
  file : String
  line : String
  function : String
deriving DecidableEq

/-- The Operation a given log entry is part of (slog.go). -/
structure Operation where
  id : String
  producer : String
  first : Bool
  last : Bool
deriving DecidableEq

instance : Inhabited Operation := ⟨⟨"", "", false, false⟩⟩

/-- A string map object (a Go map[string]string on the heap). -/
abbrev StrMap := List (String × String)

/-- A Fields object (a Go map[string]interface on the heap). -/
abbrev FldMap := List (String × Value)

/-- Entry with additional metadata (slog.go, latest version).  The labels,
details and operation fields hold heap addresses, modeling the Go map and
pointer references; none models a nil map or nil pointer.  The logger field
is the back-reference to the owning Logger. -/
structure Entry where
  logger : Nat
  stack : List Nat
  message : String
  sev : String
  labels : Option Nat
  sourceLocation : Option SourceLocation
  operation : Option Nat
  trace : String
  spanId : String
  traceSampled : Bool
  details : Option Nat
  err : String
  stackTrace : String
deriving DecidableEq

/-- The zero Entry bound to a given logger, as produced by Logger.entry. -/
def zeroEntry (la : Nat) : Entry :=
  { logger := la, stack := [], message := "", sev := "", labels := none,
    sourceLocation := none, operation := none, trace := "", spanId := "",
    traceSampled := false, details := none, err := "", stackTrace := "" }

instance : Inhabited Entry := ⟨zeroEntry 0⟩

/-- The operation object as it appears in an emitted JSON record;
omitempty drops zero-valued fields, modeled by none. -/
structure OpRec where
  id : Option String
  producer : Option String
  first : Option Bool
  last : Option Bool
deriving DecidableEq

/-- One emitted JSON record.  Fields carrying none are omitted from the
serialized line (the omitempty struct tags of Entry). -/
structure Rec where
  message : String
  severity : Option String
  labels : Option StrMap
  sourceLocation : Option SourceLocation
  operation : Option OpRec
  trace : Option String
  spanId : Option String
  traceSampled : Option Bool
  details : Option FldMap
  error : Option String
  exception : Option String
deriving DecidableEq

/-- Logger used to write structured logs (slog.go).  The out list models
the json.Encoder sink: the records written to it, in order.  The mutex is
modeled by the atomicity of the log operation below. -/
structure Logger where
  sources : Bool
  project : String
  out : List Rec
deriving DecidableEq

instance : Inhabited Logger := ⟨⟨true, "", []⟩⟩

/-- The whole mutable state of the slog package: the heaps for each kind of
referenced object, the process-wide source-location cache, and the stderr
stream that receives marshal-failure diagnostics. -/
structure State where
  loggers : List Logger
  entries : List Entry
  strMaps : List StrMap
  fldMaps : List FldMap
  ops : List Operation
  sources : List (Nat × SourceLocation)
  stderrLines : List String
deriving DecidableEq

/-- The package-level default logger std lives at address zero of the
initial state. -/
def std : Nat := 0

/-- The package-level default entry base lives at address zero of the
initial state. -/
def base : Nat := 0

/-- The state at package initialization: std equal to newLogger(os.Stdout)
and base equal to std.entry(). -/
def initState : State :=
  { loggers := [{ sources := true, project := "", out := [] }],
    entries := [zeroEntry std],
    strMaps := [], fldMaps := [], ops := [], sources := [], stderrLines := [] }

def State.getLogger (s : State) (a : Nat) : Logger := s.loggers.getD a default

def State.setLogger (s : State) (a : Nat) (l : Logger) : State :=
  { s with loggers := s.loggers.set a l }

def State.getEntry (s : State) (a : Nat) : Entry := s.entries.getD a default

def State.setEntry (s : State) (a : Nat) (e : Entry) : State :=
  { s with entries := s.entries.set a e }

def State.allocEntry (s : State) (e : Entry) : State × Nat :=
  ({ s with entries := s.entries ++ [e] }, s.entries.length)

def State.getStrMap (s : State) (a : Nat) : StrMap := s.strMaps.getD a []

def State.setStrMap (s : State) (a : Nat) (m : StrMap) : State :=
  { s with strMaps := s.strMaps.set a m }

def State.allocStrMap (s : State) (m : StrMap) : State × Nat :=
  ({ s with strMaps := s.strMaps ++ [m] }, s.strMaps.length)

def State.getFldMap (s : State) (a : Nat) : FldMap := s.fldMaps.getD a []

def State.setFldMap (s : State) (a : Nat) (m : FldMap) : State :=
  { s with fldMaps := s.fldMaps.set a m }

def State.allocFldMap (s : State) (m : FldMap) : State × Nat :=
  ({ s with fldMaps := s.fldMaps ++ [m] }, s.fldMaps.length)

def State.getOp (s : State) (a : Nat) : Operation := s.ops.getD a default

def State.setOp (s : State) (a : Nat) (o : Operation) : State :=
  { s with ops := s.ops.set a o }

def State.allocOp (s : State) (o : Operation) : State × Nat :=
  ({ s with ops := s.ops ++ [o] }, s.ops.length)

/-- Insertion or update of one key in a Go map, on the assoc-list model. -/
def mapInsert {α : Type} (m : List (String × α)) (k : String) (v : α) :
    List (String × α) :=
  if m.any (fun kv => kv.1 == k) then
    m.map (fun kv => if kv.1 == k then (k, v) else kv)
  else m ++ [(k, v)]

/-- One label insertion performed directly on the labels map at heap
address la, as user code can do through the exported Labels field. -/
def insLabelRaw (s : State) (la : Nat) (k v : String) : State :=
  s.setStrMap la (mapInsert (s.getStrMap la) k v)

/-- One detail insertion performed directly on the Fields map at heap
address da, as user code can do through the exported Details field. -/
def insDetailRaw (s : State) (da : Nat) (k : String) (v : Value) : State :=
  s.setFldMap da (mapInsert (s.getFldMap da) k v)

/-- clone a given Entry so that changes to it do not affect the parent
(slog.go).  The struct is copied by value, and the Labels and Details maps
are copied element by element into fresh map objects when non-nil; the
operation pointer, the logger pointer and the stack slice are shared. -/
def clone (s : State) (ea : Nat) : State × Nat :=
  let e := s.getEntry ea
  let p1 : State × Option Nat :=
    match e.labels with
    | none => (s, none)
    | some a =>
      let r := s.allocStrMap (s.getStrMap a)
      (r.1, some r.2)
  let p2 : State × Option Nat :=
    match e.details with
    | none => (p1.1, none)
    | some a =>
      let r := p1.1.allocFldMap (p1.1.getFldMap a)
      (r.1, some r.2)
  p2.1.allocEntry { e with labels := p1.2, details := p2.2 }

/-- entry creates a new Entry for reuse across log calls (slog.go). -/
def Logger.newEntry (s : State) (la : Nat) : State × Nat :=
  s.allocEntry (zeroEntry la)

/-- newLogger with provided options (slog.go): a fresh encoder on the given
sink, and source resolution on. -/
def newLogger (s : State) : State × Nat :=
  ({ s with loggers := s.loggers ++ [{ sources := true, project := "", out := [] }] },
   s.loggers.length)

/-- SetProject for the logger (slog.go). -/
def Logger.SetProject (s : State) (la : Nat) (project : String) : State :=
  s.setLogger la { s.getLogger la with project := project }

/-- SetIncludeSources for the logger (slog.go). -/
def Logger.SetIncludeSources (s : State) (la : Nat) (include_ : Bool) : State :=
  s.setLogger la { s.getLogger la with sources := include_ }

/-- SetOutput destination for the logger (slog.go): a fresh json.Encoder on
the new writer, modeled by an empty sink. -/
def Logger.SetOutput (s : State) (la : Nat) : State :=
  s.setLogger la { s.getLogger la with out := [] }

/-- One frame of the caller stack as runtime.Caller reports it: program
counter, file, line, and the function resolved by runtime.FuncForPC (none
when that returns nil). -/
structure CallerInfo where
  pc : Nat
  file : String
  line : Nat
  fn : Option String

/-- Symbolization data runtime.CallersFrames yields for one pc. -/
structure Frame where
  function : String
  file : String
  line : Nat

/-- The runtime environment of one call into the logger: the current call
stack (innermost first) as runtime.Caller and runtime.Callers see it, and
the symbolization runtime.CallersFrames applies at render time. -/
structure RuntimeEnv where
  frames : List CallerInfo
  frameOf : Nat → Frame

/-- runtime.Caller d in the modeled environment. -/
def runtimeCaller (env : RuntimeEnv) (d : Nat) : Option CallerInfo :=
  env.frames.get? d

/-- runtime.Callers skip pcs on a buffer of size n in the modeled
environment. -/
def runtimeCallers (env : RuntimeEnv) (skip n : Nat) : List Nat :=
  ((env.frames.drop skip).map (fun ci => ci.pc)).take n

/-- Lookup in the process-wide source-location cache keyed by pc. -/
def cacheLookup : List (Nat × SourceLocation) → Nat → Option SourceLocation
  | [], _ => none
  | (pc, loc) :: rest, p => if pc == p then some loc else cacheLookup rest p

/-- getSource from reflection, cached where possible (slog.go).  Resolves
the caller at the given depth, serving repeated pcs from the cache and
populating it otherwise; Function is set only when runtime.FuncForPC is
non-nil. -/
def getSource (s : State) (env : RuntimeEnv) (depth : Nat) :
    State × Option SourceLocation :=
  match runtimeCaller env (depth + 1) with
  | none => (s, none)
  | some ci =>
    match cacheLookup s.sources ci.pc with
    | some loc => (s, some loc)
    | none =>
      let loc : SourceLocation :=
        { file := ci.file, line := toString ci.line,
          function := match ci.fn with | some f => f | none => "" }
      ({ s with sources := (ci.pc, loc) :: s.sources }, some loc)

/-- One rendered frame line of the stack trace, in the error-reporting
format of formatStackTrace (slog.go). -/
def frameLine (env : RuntimeEnv) (pc : Nat) : String :=
  let f := env.frameOf pc
  f.function ++ "(...)\n\t" ++ f.file ++ ":" ++ toString f.line ++ "\n"

/-- format the stack as error reporting expects it (slog.go).  The
runtime.CallersFrames loop prints one frame per pc; on an empty pc list the
do-while loop still prints the single zero frame. -/
def formatStackTrace (env : RuntimeEnv) (errstr : String) (st : List Nat) :
    String :=
  errstr ++ ":\n\n" ++ "goroutine 0 [???]:\n" ++
    (match st with
     | [] => "(...)\n\t:0\n"
     | _ => String.join (st.map (frameLine env)))

/-- The operation object as serialized with its omitempty tags. -/
def encodeOp (o : Operation) : OpRec :=
  { id := if o.id = "" then none else some o.id,
    producer := if o.producer = "" then none else some o.producer,
    first := if o.first then some true else none,
    last := if o.last then some true else none }

/-- json encoding of an entry in a given state, resolving its map and
pointer fields through the heap and applying the omitempty struct tags;
fails exactly when some detail value cannot be marshaled. -/
def encodeEntry (s : State) (e : Entry) : Except String Rec :=
  let detailMap : FldMap := (e.details.map (fun a => s.getFldMap a)).getD []
  if detailMap.all (fun kv => kv.2.encodable) then
    .ok
      { message := e.message,
        severity := if e.sev = "" then none else some e.sev,
        labels :=
          match e.labels with
          | none => none
          | some a =>
            let m := s.getStrMap a
            if m.isEmpty then none else some m,
        sourceLocation := e.sourceLocation,
        operation := e.operation.map (fun a => encodeOp (s.getOp a)),
        trace := if e.trace = "" then none else some e.trace,
        spanId := if e.spanId = "" then none else some e.spanId,
        traceSampled := if e.traceSampled then some true else none,
        details :=
          match e.details with
          | none => none
          | some a =>
            let m := s.getFldMap a
            if m.isEmpty then none else some m,
        error := if e.err = "" then none else some e.err,
        exception := if e.stackTrace = "" then none else some e.stackTrace }
  else .error "json: unsupported type"

/-- log with given parameters (slog.go, latest version).  Source and stack
trace are resolved before the lock; under the lock the entry object is
mutated in place with severity, message, source location and stack trace,
then encoded; a marshal failure writes a diagnostic to os.Stderr and drops
the line, otherwise the record is written to the encoder sink. -/
def Logger.log (s : State) (la ea : Nat) (sv m : String) (depth : Nat)
    (env : RuntimeEnv) : State :=
  let l := s.getLogger la
  let p := if l.sources then getSource s env depth else (s, none)
  let s1 := p.1
  let source := p.2
  let e := s1.getEntry ea
  let stacktrace :=
    if e.stack.length > 0 then
      formatStackTrace env (if e.err.length > 0 then e.err else m) e.stack
    else ""
  let e1 := { e with sev := sv, message := m, sourceLocation := source,
                     stackTrace := stacktrace }
  let s2 := s1.setEntry ea e1
  match encodeEntry s2 e1 with
  | .error msg =>
    { s2 with stderrLines := s2.stderrLines ++ ["could not marshal log: " ++ msg] }
  | .ok r =>
    s2.setLogger la { s2.getLogger la with out := (s2.getLogger la).out ++ [r] }

/-- WithLabels for a given Entry; creates a child entry (slog.go).  The
clone is given a fresh labels map when it has none, then each value is
coerced with fmt.Sprint and inserted. -/
def Entry.WithLabels (s : State) (ea : Nat) (labels : List (String × Value)) :
    State × Nat :=
  let p := clone s ea
  let s1 := p.1
  let ca := p.2
  let c := s1.getEntry ca
  let q : State × Nat :=
    match c.labels with
    | some la => (s1, la)
    | none =>
      let r := s1.allocStrMap []
      (r.1.setEntry ca { r.1.getEntry ca with labels := some r.2 }, r.2)
  (labels.foldl (fun st kv => insLabelRaw st q.2 kv.1 (fmtSprint kv.2)) q.1, ca)

/-- WithError for a given Entry; creates a child entry (slog.go).  The Go
error argument is modeled as none for nil or its message string. -/
def Entry.WithError (s : State) (ea : Nat) (err : Option String) : State × Nat :=
  let p := clone s ea
  let c := p.1.getEntry p.2
  (p.1.setEntry p.2 { c with err := match err with | some msg => msg | none => "" }, p.2)

/-- WithDetail for a given Entry; creates a child entry (slog.go). -/
def Entry.WithDetail (s : State) (ea : Nat) (k : String) (v : Value) :
    State × Nat :=
  let p := clone s ea
  let s1 := p.1
  let ca := p.2
  let c := s1.getEntry ca
  let q : State × Nat :=
    match c.details with
    | some da => (s1, da)
    | none =>
      let r := s1.allocFldMap []
      (r.1.setEntry ca { r.1.getEntry ca with details := some r.2 }, r.2)
  (insDetailRaw q.1 q.2 k v, ca)

/-- WithDetails for a given Entry; creates a child entry (slog.go). -/
def Entry.WithDetails (s : State) (ea : Nat) (details : List (String × Value)) :
    State × Nat :=
  let p := clone s ea
  let s1 := p.1
  let ca := p.2
  let c := s1.getEntry ca
  let q : State × Nat :=
    match c.details with
    | some da => (s1, da)
    | none =>
      let r := s1.allocFldMap []
      (r.1.setEntry ca { r.1.getEntry ca with details := some r.2 }, r.2)
  (details.foldl (fun st kv => insDetailRaw st q.2 kv.1 kv.2) q.1, ca)

/-- The span context consumed read-only by WithSpan: the trace identifier
as fmt.Sprint renders it, the span identifier string, and the sampling
flag. -/
structure SpanContext where
  traceID : String
  spanID : String
  sampled : Bool

/-- WithSpan details included for a given trace; creates a child entry
(slog.go).  Composes the trace resource name from the owning Logger's
project, whatever that is. -/
def Entry.WithSpan (s : State) (ea : Nat) (sc : SpanContext) : State × Nat :=
  let proj := (s.getLogger (s.getEntry ea).logger).project
  let p := clone s ea
  let c := p.1.getEntry p.2
  (p.1.setEntry p.2
    { c with trace := "projects/" ++ proj ++ "/traces/" ++ sc.traceID,
             spanId := sc.spanID, traceSampled := sc.sampled }, p.2)

/-- withStack with a given skip (slog.go): clones the entry and stores up
to sixteen frames of the current call stack into the clone. -/
def Entry.withStack (s : State) (ea : Nat) (skip : Nat) (env : RuntimeEnv) :
    State × Nat :=
  let p := clone s ea
  let c := p.1.getEntry p.2
  (p.1.setEntry p.2 { c with stack := runtimeCallers env skip 16 }, p.2)

/-- WithStack included; creates a child entry (slog.go). -/
def Entry.WithStack (s : State) (ea : Nat) (env : RuntimeEnv) : State × Nat :=
  Entry.withStack s ea 3 env

/-- WithOperation details included in all logs written for a given Entry
(slog.go).  Mutates the receiver in place and returns it, not a clone. -/
def Entry.WithOperation (s : State) (ea : Nat) (id producer : String) :
    State × Nat :=
  let p := s.allocOp { id := id, producer := producer, first := false, last := false }
  (p.1.setEntry ea { p.1.getEntry ea with operation := some p.2 }, ea)

/-- startOperation with a given ID and producer (slog.go).  Sets Operation
with first true, logs the start at Notice level, clears first on the same
operation object through the entry's pointer, and returns the receiver. -/
def Entry.startOperation (s : State) (ea : Nat) (id producer : String)
    (env : RuntimeEnv) : State × Nat :=
  let p := s.allocOp { id := id, producer := producer, first := true, last := false }
  let s1 := p.1.setEntry ea { p.1.getEntry ea with operation := some p.2 }
  let s2 := Logger.log s1 (s1.getEntry ea).logger ea severityNotice
    (producer ++ " starting operation " ++ id) 3 env
  let s3 :=
    match (s2.getEntry ea).operation with
    | some oa => s2.setOp oa { s2.getOp oa with first := false }
    | none => s2
  (s3, ea)

/-- EndOperation stops any current operation (slog.go).  Returns at once
when no operation is set; otherwise sets last through the pointer, logs the
end at Notice level, and clears the entry's operation to nil. -/
def Entry.EndOperation (s : State) (ea : Nat) (env : RuntimeEnv) : State :=
  match (s.getEntry ea).operation with
  | none => s
  | some oa =>
    let s1 := s.setOp oa { s.getOp oa with last := true }
    let o := s1.getOp oa
    let s2 := Logger.log s1 (s1.getEntry ea).logger ea severityNotice
      (o.producer ++ " ending operation " ++ o.id) 2 env
    s2.setEntry ea { s2.getEntry ea with operation := none }

/-- Debug on an explicit Entry (slog.go); the fmt.Sprint join of the
variadic arguments is modeled by the already formatted message. -/
def Entry.Debug (s : State) (ea : Nat) (m : String) (env : RuntimeEnv) : State :=
  Logger.log s (s.getEntry ea).logger ea severityDebug m 2 env

/-- Debugf on an explicit Entry (slog.go); fmt.Sprintf is modeled by the
already formatted message. -/
def Entry.Debugf (s : State) (ea : Nat) (m : String) (env : RuntimeEnv) : State :=
  Logger.log s (s.getEntry ea).logger ea severityDebug m 2 env

/-- Debug on a Logger (slog.go); logs the package default entry base. -/
def Logger.Debug (s : State) (la : Nat) (m : String) (env : RuntimeEnv) : State :=
  Logger.log s la base severityDebug m 2 env

/-- Debugf on a Logger (slog.go). -/
def Logger.Debugf (s : State) (la : Nat) (m : String) (env : RuntimeEnv) : State :=
  Logger.log s la base severityDebug m 2 env

/-- Package-level Debug (slog.go); std logs the default entry base. -/
def Debug (s : State) (m : String) (env : RuntimeEnv) : State :=
  Logger.log s std base severityDebug m 2 env

/-- Package-level Debugf (slog.go). -/
def Debugf (s : State) (m : String) (env : RuntimeEnv) : State :=
  Logger.log s std base severityDebug m 2 env

/-- Info on an explicit Entry (slog.go). -/
def Entry.Info (s : State) (ea : Nat) (m : String) (env : RuntimeEnv) : State :=
  Logger.log s (s.getEntry ea).logger ea severityInfo m 2 env

/-- Infof on an explicit Entry (slog.go). -/
def Entry.Infof (s : State) (ea : Nat) (m : String) (env : RuntimeEnv) : State :=
  Logger.log s (s.getEntry ea).logger ea severityInfo m 2 env

/-- Info on a Logger (slog.go). -/
def Logger.Info (s : State) (la : Nat) (m : String) (env : RuntimeEnv) : State :=
  Logger.log s la base severityInfo m 2 env

/-- Infof on a Logger (slog.go). -/
def Logger.Infof (s : State) (la : Nat) (m : String) (env : RuntimeEnv) : State :=
  Logger.log s la base severityInfo m 2 env

/-- Package-level Info (slog.go). -/
def Info (s : State) (m : String) (env : RuntimeEnv) : State :=
  Logger.log s std base severityInfo m 2 env

/-- Package-level Infof (slog.go). -/
def Infof (s : State) (m : String) (env : RuntimeEnv) : State :=
  Logger.log s std base severityInfo m 2 env

/-- Notice on an explicit Entry (slog.go). -/
def Entry.Notice (s : State) (ea : Nat) (m : String) (env : RuntimeEnv) : State :=
  Logger.log s (s.getEntry ea).logger ea severityNotice m 2 env

/-- Noticef on an explicit Entry (slog.go). -/
def Entry.Noticef (s : State) (ea : Nat) (m : String) (env : RuntimeEnv) : State :=
  Logger.log s (s.getEntry ea).logger ea severityNotice m 2 env

/-- Notice on a Logger (slog.go). -/
def Logger.Notice (s : State) (la : Nat) (m : String) (env : RuntimeEnv) : State :=
  Logger.log s la base severityNotice m 2 env

/-- Noticef on a Logger (slog.go). -/
def Logger.Noticef (s : State) (la : Nat) (m : String) (env : RuntimeEnv) : State :=
  Logger.log s la base severityNotice m 2 env

/-- Package-level Notice (slog.go). -/
def Notice (s : State) (m : String) (env : RuntimeEnv) : State :=
  Logger.log s std base severityNotice m 2 env

/-- Package-level Noticef (slog.go). -/
def Noticef (s : State) (m : String) (env : RuntimeEnv) : State :=
  Logger.log s std base severityNotice m 2 env

/-- Warn on an explicit Entry (slog.go). -/
def Entry.Warn (s : State) (ea : Nat) (m : String) (env : RuntimeEnv) : State :=
  Logger.log s (s.getEntry ea).logger ea severityWarn m 2 env

/-- Warnf on an explicit Entry (slog.go). -/
def Entry.Warnf (s : State) (ea : Nat) (m : String) (env : RuntimeEnv) : State :=
  Logger.log s (s.getEntry ea).logger ea severityWarn m 2 env

/-- Warn on a Logger (slog.go). -/
def Logger.Warn (s : State) (la : Nat) (m : String) (env : RuntimeEnv) : State :=
  Logger.log s la base severityWarn m 2 env

/-- Warnf on a Logger (slog.go). -/
def Logger.Warnf (s : State) (la : Nat) (m : String) (env : RuntimeEnv) : State :=
  Logger.log s la base severityWarn m 2 env

/-- Package-level Warn (slog.go). -/
def Warn (s : State) (m : String) (env : RuntimeEnv) : State :=
  Logger.log s std base severityWarn m 2 env

/-- Package-level Warnf (slog.go). -/
def Warnf (s : State) (m : String) (env : RuntimeEnv) : State :=
  Logger.log s std base severityWarn m 2 env

/-- Error on an explicit Entry (slog.go): logs a stack-capturing clone of
the receiver. -/
def Entry.Error (s : State) (ea : Nat) (m : String) (env : RuntimeEnv) : State :=
  let lg := (s.getEntry ea).logger
  let p := Entry.withStack s ea 3 env
  Logger.log p.1 lg p.2 severityError m 2 env

/-- Errorf on an explicit Entry (slog.go). -/
def Entry.Errorf (s : State) (ea : Nat) (m : String) (env : RuntimeEnv) : State :=
  let lg := (s.getEntry ea).logger
  let p := Entry.withStack s ea 3 env
  Logger.log p.1 lg p.2 severityError m 2 env

/-- Error on a Logger (slog.go): logs a stack-capturing clone of base. -/
def Logger.Error (s : State) (la : Nat) (m : String) (env : RuntimeEnv) : State :=
  let p := Entry.withStack s base 3 env
  Logger.log p.1 la p.2 severityError m 2 env

/-- Errorf on a Logger (slog.go). -/
def Logger.Errorf (s : State) (la : Nat) (m : String) (env : RuntimeEnv) : State :=
  let p := Entry.withStack s base 3 env
  Logger.log p.1 la p.2 severityError m 2 env

/-- Package-level Error (slog.go). -/
def Error (s : State) (m : String) (env : RuntimeEnv) : State :=
  let p := Entry.withStack s base 3 env
  Logger.log p.1 std p.2 severityError m 2 env

/-- Package-level Errorf (slog.go). -/
def Errorf (s : State) (m : String) (env : RuntimeEnv) : State :=
  let p := Entry.withStack s base 3 env
  Logger.log p.1 std p.2 severityError m 2 env

/-- Critical on an explicit Entry (slog.go). -/
def Entry.Critical (s : State) (ea : Nat) (m : String) (env : RuntimeEnv) : State :=
  let lg := (s.getEntry ea).logger
  let p := Entry.withStack s ea 3 env
  Logger.log p.1 lg p.2 severityCritical m 2 env

/-- Criticalf on an explicit Entry (slog.go). -/
def Entry.Criticalf (s : State) (ea : Nat) (m : String) (env : RuntimeEnv) : State :=
  let lg := (s.getEntry ea).logger
  let p := Entry.withStack s ea 3 env
  Logger.log p.1 lg p.2 severityCritical m 2 env

/-- Critical on a Logger (slog.go). -/
def Logger.Critical (s : State) (la : Nat) (m : String) (env : RuntimeEnv) : State :=
  let p := Entry.withStack s base 3 env
  Logger.log p.1 la p.2 severityCritical m 2 env

/-- Criticalf on a Logger (slog.go). -/
def Logger.Criticalf (s : State) (la : Nat) (m : String) (env : RuntimeEnv) : State :=
  let p := Entry.withStack s base 3 env
  Logger.log p.1 la p.2 severityCritical m 2 env

/-- Package-level Critical (slog.go). -/
def Critical (s : State) (m : String) (env : RuntimeEnv) : State :=
  let p := Entry.withStack s base 3 env
  Logger.log p.1 std p.2 severityCritical m 2 env

/-- Package-level Criticalf (slog.go). -/
def Criticalf (s : State) (m : String) (env : RuntimeEnv) : State :=
  let p := Entry.withStack s base 3 env
  Logger.log p.1 std p.2 severityCritical m 2 env

/-- Alert on an explicit Entry (slog.go). -/
def Entry.Alert (s : State) (ea : Nat) (m : String) (env : RuntimeEnv) : State :=
  let lg := (s.getEntry ea).logger
  let p := Entry.withStack s ea 3 env
  Logger.log p.1 lg p.2 severityAlert m 2 env

/-- Alertf on an explicit Entry (slog.go). -/
def Entry.Alertf (s : State) (ea : Nat) (m : String) (env : RuntimeEnv) : State :=
  let lg := (s.getEntry ea).logger
  let p := Entry.withStack s ea 3 env
  Logger.log p.1 lg p.2 severityAlert m 2 env

/-- Alert on a Logger (slog.go). -/
def Logger.Alert (s : State) (la : Nat) (m : String) (env : RuntimeEnv) : State :=
  let p := Entry.withStack s base 3 env
  Logger.log p.1 la p.2 severityAlert m 2 env

/-- Alertf on a Logger (slog.go). -/
def Logger.Alertf (s : State) (la : Nat) (m : String) (env : RuntimeEnv) : State :=
  let p := Entry.withStack s base 3 env
  Logger.log p.1 la p.2 severityAlert m 2 env

/-- Package-level Alert (slog.go). -/
def Alert (s : State) (m : String) (env : RuntimeEnv) : State :=
  let p := Entry.withStack s base 3 env
  Logger.log p.1 std p.2 severityAlert m 2 env

/-- Package-level Alertf (slog.go). -/
def Alertf (s : State) (m : String) (env : RuntimeEnv) : State :=
  let p := Entry.withStack s base 3 env
  Logger.log p.1 std p.2 severityAlert m 2 env

/-- Emergency on an explicit Entry (slog.go). -/
def Entry.Emergency (s : State) (ea : Nat) (m : String) (env : RuntimeEnv) : State :=
  let lg := (s.getEntry ea).logger
  let p := Entry.withStack s ea 3 env
  Logger.log p.1 lg p.2 severityEmergency m 2 env

/-- Emergencyf on an explicit Entry (slog.go). -/
def Entry.Emergencyf (s : State) (ea : Nat) (m : String) (env : RuntimeEnv) : State :=
  let lg := (s.getEntry ea).logger
  let p := Entry.withStack s ea 3 env
  Logger.log p.1 lg p.2 severityEmergency m 2 env

/-- Emergency on a Logger (slog.go). -/
def Logger.Emergency (s : State) (la : Nat) (m : String) (env : RuntimeEnv) : State :=
  let p := Entry.withStack s base 3 env
  Logger.log p.1 la p.2 severityEmergency m 2 env

/-- Emergencyf on a Logger (slog.go). -/
def Logger.Emergencyf (s : State) (la : Nat) (m : String) (env : RuntimeEnv) : State :=
  let p := Entry.withStack s base 3 env
  Logger.log p.1 la p.2 severityEmergency m 2 env

/-- Package-level Emergency (slog.go). -/
def Emergency (s : State) (m : String) (env : RuntimeEnv) : State :=
  let p := Entry.withStack s base 3 env
  Logger.log p.1 std p.2 severityEmergency m 2 env

/-- Package-level Emergencyf (slog.go). -/
def Emergencyf (s : State) (m : String) (env : RuntimeEnv) : State :=
  let p := Entry.withStack s base 3 env
  Logger.log p.1 std p.2 severityEmergency m 2 env

/-- Keys of a Go context value chain.  The slog package's unexported key
type means only this package ever stores under entryKey; keys created by
other packages are the other constructor. -/
inductive CtxKey where
  | entryKey
  | other (n : Nat)
deriving DecidableEq

/-- Values stored in a context: an entry address stored by NewContext, or a
value of some other type. -/
inductive CtxVal where
  | entryVal (a : Nat)
  | otherVal (n : Nat)
deriving DecidableEq

/-- A Go context modeled as its chain of WithValue pairs, most recent
first. -/
abbrev Context := List (CtxKey × CtxVal)

/-- ctx.Value(k): the most recently stored value for the key. -/
def ctxValue : Context → CtxKey → Option CtxVal
  | [], _ => none
  | (k, v) :: rest, q => if k == q then some v else ctxValue rest q

/-- NewContext returns a new Context that carries an entry (slog.go). -/
def NewContext (ctx : Context) (ea : Nat) : Context :=
  (CtxKey.entryKey, CtxVal.entryVal ea) :: ctx

/-- FromContext returns the Entry stored in ctx, or a new Entry of the
default logger if none exists (slog.go); the type assertion fails on a
missing key or a value of another type. -/
def FromContext (s : State) (ctx : Context) : State × Nat :=
  match ctxValue ctx CtxKey.entryKey with
  | some (CtxVal.entryVal a) => (s, a)
  | _ => Logger.newEntry s std

end Slog

namespace Config

/-- One defined flag: its name, the value currently bound to it, and the
parser its flag.Value applies to a textual input, returning the normalized
value or none on a parse failure. -/
structure Flag where
  name : String
  value : String
  parse : String → Option String

/-- A flag set: the defined flags and whether it has already parsed. -/
structure FlagSet where
  flags : List Flag
  parsed : Bool

/-- The process environment, as name-value bindings. -/
abbrev Env := List (String × String)

def envLookup : Env → String → Option String
  | [], _ => none
  | (k, v) :: rest, q => if k == q then some v else envLookup rest q

/-- strings.ToUpper on one ASCII character, as flag names use. -/
def upChar (c : Char) : Char :=
  if c.isLower then Char.ofNat (c.toNat - 32) else c

/-- strings.ToUpper restricted to the ASCII flag names the component
handles. -/
def upper (s : String) : String := String.mk (s.data.map upChar)

/-- The diagnostic cause recorded for a failing override value. -/
def failCause (v : String) : String := "invalid value " ++ v

/-- Modelled from the spec: the environment-variable override pass of the
config component's batch parse entry point (the ParseFlagSet exercised by
config_test.go, whose implementation is not under src; src/config/config.go
holds the older eager per-flag override).  For every defined flag whose
upper-cased name is set in the environment and whose value fails to parse,
one (flag name, cause) pair is collected. -/
def overrideErrors (env : Env) (fs : FlagSet) : List (String × String) :=
  fs.flags.filterMap (fun f =>
    match envLookup env (upper f.name) with
    | none => none
    | some v =>
      match f.parse v with
      | some _ => none
      | none => some (f.name, failCause v))

/-- Modelled from the spec: apply every environment override, binding each
overridden flag to its parsed value; marks the set parsed. -/
def applyOverrides (env : Env) (fs : FlagSet) : FlagSet :=
  { flags :=
      fs.flags.map (fun f =>
        match envLookup env (upper f.name) with
        | none => f
        | some v =>
          match f.parse v with
          | some pv => { f with value := pv }
          | none => f),
    parsed := true }

/-- Modelled from the spec: the config component's parse entry point.
Calling it on an already parsed set is a programmer error surfaced as a
returned error; when one or more environment overrides fail to parse, the
aggregated error lists every failing flag name with its cause and no
override is applied at all; otherwise all overrides are applied.  The
function is total, so it never panics.  Command-line argument parsing is
delegated to the standard flag facility and out of scope here. -/
def parseFlagSet (env : Env) (fs : FlagSet) :
    FlagSet × Option (List (String × String)) :=
  if fs.parsed then (fs, some [("", "flag set already parsed")])
  else
    let errs := overrideErrors env fs
    if errs.isEmpty then (applyOverrides env fs, none)
    else (fs, some errs)

/-- A concrete flag set with one unparsed flag named port that accepts only
the value 8080. -/
def portFlagSet : FlagSet :=
  { flags := [{ name := "port", value := "80",
                parse := fun v => if v == "8080" then some v else none }],
    parsed := false }

/-- A concrete environment carrying an unparsable override for port. -/
def badEnv : Env := [("PORT", "oops")]

end Config

namespace Mutex

/-- One atomic action of a thread emitting a log line: acquiring the
Logger's lock, writing one byte of the encoded record to the sink, or
releasing the lock.  Writes are deliberately not guarded by the semantics
itself; only the program structure of Logger.log keeps them inside the
locked region. -/
inductive Act where
  | lock
  | unlock
  | write (b : Char)
deriving DecidableEq

/-- The action sequence Logger.log performs on the shared sink for one
record: take the mutex, write the bytes of the newline-terminated encoded
record, release the mutex. -/
def emitProg (r : List Char) : List Act :=
  Act.lock :: (r.map Act.write ++ [Act.unlock])

/-- A configuration of N goroutines concurrently emitting through one
Logger: the remaining program of each goroutine, the current holder of the
Logger's mutex, and the bytes written to the output sink so far. -/
structure Conf where
  progs : List (List Act)
  owner : Option Nat
  out : List Char
deriving DecidableEq

/-- One scheduler step: goroutine t executes its next action if enabled.
Taking the lock blocks while another goroutine holds it; writes and
unlocks are always enabled, so any interleaving the mutex admits is
represented. -/
def step (cf : Conf) (t : Nat) : Option Conf :=
  match cf.progs.getD t [] with
  | [] => none
  | a :: rest =>
    match a with
    | .lock =>
      match cf.owner with
      | some _ => none
      | none => some { cf with progs := cf.progs.set t rest, owner := some t }
    | .unlock => some { cf with progs := cf.progs.set t rest, owner := none }
    | .write b => some { cf with progs := cf.progs.set t rest, out := cf.out ++ [b] }

/-- The scheduling relation: some goroutine takes one enabled step. -/
def SchedStep (a b : Conf) : Prop := ∃ t, step a t = some b

/-- The initial configuration for records rs: one goroutine per record,
each about to run Logger.log's locked emission, lock free, sink empty. -/
def init (rs : List (List Char)) : Conf :=
  { progs := rs.map emitProg, owner := none, out := [] }

/-- All goroutines have returned from their log call. -/
def allDone (cf : Conf) : Bool :=
  cf.progs.all (fun p => p.isEmpty)

/-- The record of goroutine t. -/
def threadRec (rs : List (List Char)) (t : Nat) : List Char := rs.getD t []

end Mutex

namespace Slog

theorem getD_append_lt {α : Type} (l m : List α) (d : α) (i : Nat)
    (h : i < l.length) : (l ++ m).getD i d = l.getD i d := by
  simp [List.getD, List.getElem?_append_left h]

theorem getD_set_ne {α : Type} (l : List α) (d a : α) (i j : Nat) (h : i ≠ j) :
    (l.set i a).getD j d = l.getD j d := by
  simp [List.getD, List.getElem?_set_ne h]

theorem getD_set_lt {α : Type} (l : List α) (d a : α) (i : Nat)
    (h : i < l.length) : (l.set i a).getD i d = a := by
  simp [List.getD, List.getElem?_set_eq_of_lt a h]

theorem getD_append_self {α : Type} (l : List α) (d a : α) :
    (l ++ [a]).getD l.length d = a := by
  simp [List.getD]

/-- Everything the serialization of the entry at a given address can
observe: the entry object itself and the resolved contents of its labels
map, details map, and operation object. -/
def entryView (s : State) (ea : Nat) :
    Entry × StrMap × FldMap × Option Operation :=
  let e := s.getEntry ea
  (e, ((e.labels).map (fun a => s.getStrMap a)).getD [],
      ((e.details).map (fun a => s.getFldMap a)).getD [],
      (e.operation).map (fun a => s.getOp a))

/-- The serialized output of the entry at an address. -/
def encodeEntryAt (s : State) (ea : Nat) : Except String Rec :=
  encodeEntry s (s.getEntry ea)

/-- Serialization only reads through the entry view. -/
theorem encode_eq_of_view_eq (s s' : State) (ea : Nat)
    (h : entryView s' ea = entryView s ea) :
    encodeEntryAt s' ea = encodeEntryAt s ea := by
  have he : s'.getEntry ea = s.getEntry ea := congrArg (fun v => v.1) h
  have hl : (((s'.getEntry ea).labels).map (fun a => s'.getStrMap a)).getD [] =
      (((s.getEntry ea).labels).map (fun a => s.getStrMap a)).getD [] :=
    congrArg (fun v => v.2.1) h
  have hd : (((s'.getEntry ea).details).map (fun a => s'.getFldMap a)).getD [] =
      (((s.getEntry ea).details).map (fun a => s.getFldMap a)).getD [] :=
    congrArg (fun v => v.2.2.1) h
  have ho : ((s'.getEntry ea).operation).map (fun a => s'.getOp a) =
      ((s.getEntry ea).operation).map (fun a => s.getOp a) :=
    congrArg (fun v => v.2.2.2) h
  rw [he] at hl hd ho
  unfold encodeEntryAt encodeEntry
  rw [he]
  rcases h1 : (s.getEntry ea).labels with _ | la <;>
    rcases h2 : (s.getEntry ea).details with _ | da <;>
    rcases h3 : (s.getEntry ea).operation with _ | oa
  all_goals simp [h1, h2, h3] at hl hd ho ⊢
  all_goals try rw [hl]
  all_goals try rw [hd]
  all_goals try rw [ho]
  all_goals simp

def optBoundB : Option Nat → Nat → Bool
  | none, _ => true
  | some a, n => a < n

def optNeB : Option Nat → Option Nat → Bool
  | some a, some b => a != b
  | _, _ => true

/-- The addresses held by the entry at ea are in bounds of the heaps. -/
def entryBounds (s : State) (ea : Nat) : Bool :=
  (decide (ea < s.entries.length)) &&
  optBoundB (s.getEntry ea).labels s.strMaps.length &&
  optBoundB (s.getEntry ea).details s.fldMaps.length &&
  optBoundB (s.getEntry ea).operation s.ops.length

/-- Independent ownership: e and c are distinct entry objects whose labels
and details maps live at distinct heap addresses, with e in bounds. -/
def sep (s : State) (e c : Nat) : Bool :=
  (e != c) && entryBounds s e && (decide (c < s.entries.length)) &&
  optNeB (s.getEntry e).labels (s.getEntry c).labels &&
  optNeB (s.getEntry e).details (s.getEntry c).details

theorem optBoundB_elim {o : Option Nat} {n a : Nat} (h : optBoundB o n = true)
    (ha : o = some a) : a < n := by
  subst ha; simpa [optBoundB] using h

theorem optNeB_elim {o p : Option Nat} {a b : Nat} (h : optNeB o p = true)
    (ha : o = some a) (hb : p = some b) : a ≠ b := by
  subst ha; subst hb; simpa [optNeB] using h

theorem getEntry_alloc_lt (s : State) (e : Entry) (i : Nat)
    (h : i < s.entries.length) : (s.allocEntry e).1.getEntry i = s.getEntry i :=
  getD_append_lt s.entries [e] default i h

theorem getEntry_alloc_self (s : State) (e : Entry) :
    (s.allocEntry e).1.getEntry s.entries.length = e :=
  getD_append_self s.entries default e

theorem getEntry_set_self (s : State) (e : Entry) (a : Nat)
    (h : a < s.entries.length) : (s.setEntry a e).getEntry a = e :=
  getD_set_lt s.entries default e a h

theorem getEntry_set_ne (s : State) (e : Entry) (a b : Nat) (h : a ≠ b) :
    (s.setEntry a e).getEntry b = s.getEntry b :=
  getD_set_ne s.entries default e a b h

theorem getStrMap_alloc_lt (s : State) (m : StrMap) (i : Nat)
    (h : i < s.strMaps.length) :
    (s.allocStrMap m).1.getStrMap i = s.getStrMap i :=
  getD_append_lt s.strMaps [m] [] i h

theorem getStrMap_alloc_self (s : State) (m : StrMap) :
    (s.allocStrMap m).1.getStrMap s.strMaps.length = m :=
  getD_append_self s.strMaps [] m

theorem getStrMap_set_self (s : State) (m : StrMap) (a : Nat)
    (h : a < s.strMaps.length) : (s.setStrMap a m).getStrMap a = m :=
  getD_set_lt s.strMaps [] m a h

theorem getStrMap_set_ne (s : State) (m : StrMap) (a b : Nat) (h : a ≠ b) :
    (s.setStrMap a m).getStrMap b = s.getStrMap b :=
  getD_set_ne s.strMaps [] m a b h

theorem getFldMap_alloc_lt (s : State) (m : FldMap) (i : Nat)
    (h : i < s.fldMaps.length) :
    (s.allocFldMap m).1.getFldMap i = s.getFldMap i :=
  getD_append_lt s.fldMaps [m] [] i h

theorem getFldMap_alloc_self (s : State) (m : FldMap) :
    (s.allocFldMap m).1.getFldMap s.fldMaps.length = m :=
  getD_append_self s.fldMaps [] m

theorem getFldMap_set_self (s : State) (m : FldMap) (a : Nat)
    (h : a < s.fldMaps.length) : (s.setFldMap a m).getFldMap a = m :=
  getD_set_lt s.fldMaps [] m a h

theorem getFldMap_set_ne (s : State) (m : FldMap) (a b : Nat) (h : a ≠ b) :
    (s.setFldMap a m).getFldMap b = s.getFldMap b :=
  getD_set_ne s.fldMaps [] m a b h

theorem getOp_alloc_lt (s : State) (o : Operation) (i : Nat)
    (h : i < s.ops.length) : (s.allocOp o).1.getOp i = s.getOp i :=
  getD_append_lt s.ops [o] default i h

theorem getOp_alloc_self (s : State) (o : Operation) :
    (s.allocOp o).1.getOp s.ops.length = o :=
  getD_append_self s.ops default o

theorem getOp_set_self (s : State) (o : Operation) (a : Nat)
    (h : a < s.ops.length) : (s.setOp a o).getOp a = o :=
  getD_set_lt s.ops default o a h

theorem getOp_set_ne (s : State) (o : Operation) (a b : Nat) (h : a ≠ b) :
    (s.setOp a o).getOp b = s.getOp b :=
  getD_set_ne s.ops default o a b h

theorem getLogger_set_self (s : State) (l : Logger) (a : Nat)
    (h : a < s.loggers.length) : (s.setLogger a l).getLogger a = l :=
  getD_set_lt s.loggers default l a h

theorem getLogger_set_ne (s : State) (l : Logger) (a b : Nat) (h : a ≠ b) :
    (s.setLogger a l).getLogger b = s.getLogger b :=
  getD_set_ne s.loggers default l a b h

/-- What clone does to the state: the parent and every existing heap cell
are untouched, the child sits at the fresh entry address, its labels and
details maps are fresh copies of the parent's, and all other fields are
copied from the parent. -/
structure CloneSpec (s : State) (c : Nat) (s' : State) (c' : Nat) : Prop where
  centry : c' = s.entries.length
  entLen : s'.entries.length = s.entries.length + 1
  strLen : s.strMaps.length ≤ s'.strMaps.length
  fldLen : s.fldMaps.length ≤ s'.fldMaps.length
  entFrame : ∀ i, i < s.entries.length → s'.getEntry i = s.getEntry i
  strFrame : ∀ i, i < s.strMaps.length → s'.getStrMap i = s.getStrMap i
  fldFrame : ∀ i, i < s.fldMaps.length → s'.getFldMap i = s.getFldMap i
  opsEq : s'.ops = s.ops
  loggersEq : s'.loggers = s.loggers
  child : s'.getEntry c' =
    { s.getEntry c with
        labels := ((s.getEntry c).labels).map (fun _ => s.strMaps.length),
        details := ((s.getEntry c).details).map (fun _ => s.fldMaps.length) }
  childStr : ∀ a, (s.getEntry c).labels = some a →
      s'.getStrMap s.strMaps.length = s.getStrMap a
  childFld : ∀ a, (s.getEntry c).details = some a →
      s'.getFldMap s.fldMaps.length = s.getFldMap a

theorem clone_spec (s : State) (c : Nat) :
    CloneSpec s c (clone s c).1 (clone s c).2 := by
  rcases h1 : (s.getEntry c).labels with _ | a <;>
    rcases h2 : (s.getEntry c).details with _ | b
  · have hc : clone s c =
        s.allocEntry { s.getEntry c with labels := none, details := none } := by
      simp only [clone]
      rw [h1, h2]
    rw [hc]
    refine ⟨rfl, by simp [State.allocEntry], Nat.le_refl _, Nat.le_refl _,
        fun i hi => getEntry_alloc_lt s _ i hi,
        fun i _ => rfl, fun i _ => rfl, rfl, rfl, ?_, ?_, ?_⟩
    · rw [h1, h2]
      simp [State.allocEntry, State.getEntry, getD_append_self]
    · intro x hx
      rw [h1] at hx
      cases hx
    · intro x hx
      rw [h2] at hx
      cases hx
  · have hc : clone s c =
        (s.allocFldMap (s.getFldMap b)).1.allocEntry
          { s.getEntry c with labels := none,
                              details := some (s.allocFldMap (s.getFldMap b)).2 } := by
      simp only [clone]
      rw [h1, h2]
    rw [hc]
    refine ⟨rfl, by simp [State.allocEntry, State.allocFldMap], Nat.le_refl _,
        by simp only [State.allocFldMap, State.allocEntry, List.length_append]; omega,
        fun i hi => getEntry_alloc_lt _ _ i hi,
        fun i _ => rfl,
        fun i hi => getFldMap_alloc_lt s _ i hi,
        rfl, rfl, ?_, ?_, ?_⟩
    · rw [h1, h2]
      simp [State.allocFldMap, State.allocEntry, State.getEntry, getD_append_self]
    · intro x hx
      rw [h1] at hx
      cases hx
    · intro x hx
      rw [h2] at hx
      injection hx with hx
      subst hx
      exact getFldMap_alloc_self s _
  · have hc : clone s c =
        (s.allocStrMap (s.getStrMap a)).1.allocEntry
          { s.getEntry c with labels := some (s.allocStrMap (s.getStrMap a)).2,
                              details := none } := by
      simp only [clone]
      rw [h1, h2]
    rw [hc]
    refine ⟨rfl, by simp [State.allocEntry, State.allocStrMap],
        by simp only [State.allocStrMap, State.allocEntry, List.length_append]; omega,
        Nat.le_refl _,
        fun i hi => getEntry_alloc_lt _ _ i hi,
        fun i hi => getStrMap_alloc_lt s _ i hi,
        fun i _ => rfl,
        rfl, rfl, ?_, ?_, ?_⟩
    · rw [h1, h2]
      simp [State.allocStrMap, State.allocEntry, State.getEntry, getD_append_self]
    · intro x hx
      rw [h1] at hx
      injection hx with hx
      subst hx
      exact getStrMap_alloc_self s _
    · intro x hx
      rw [h2] at hx
      cases hx
  · have hc : clone s c =
        ((s.allocStrMap (s.getStrMap a)).1.allocFldMap
            ((s.allocStrMap (s.getStrMap a)).1.getFldMap b)).1.allocEntry
          { s.getEntry c with
              labels := some (s.allocStrMap (s.getStrMap a)).2,
              details := some ((s.allocStrMap (s.getStrMap a)).1.allocFldMap
                ((s.allocStrMap (s.getStrMap a)).1.getFldMap b)).2 } := by
      simp only [clone]
      rw [h1, h2]
    rw [hc]
    refine ⟨rfl, by simp [State.allocEntry, State.allocStrMap, State.allocFldMap],
        by simp only [State.allocStrMap, State.allocFldMap, State.allocEntry,
              List.length_append]; omega,
        by simp only [State.allocStrMap, State.allocFldMap, State.allocEntry,
              List.length_append]; omega,
        fun i hi => getEntry_alloc_lt _ _ i hi,
        fun i hi => getStrMap_alloc_lt s _ i hi,
        fun i hi => getFldMap_alloc_lt (s.allocStrMap (s.getStrMap a)).1 _ i hi,
        rfl, rfl, ?_, ?_, ?_⟩
    · rw [h1, h2]
      simp [State.allocStrMap, State.allocFldMap, State.allocEntry, State.getEntry,
            getD_append_self]
    · intro x hx
      rw [h1] at hx
      injection hx with hx
      subst hx
      exact getStrMap_alloc_self s _
    · intro x hx
      rw [h2] at hx
      injection hx with hx
      subst hx
      exact getFldMap_alloc_self (s.allocStrMap (s.getStrMap a)).1 _

/-- A state change that only touches the string map at address la. -/
structure StrOnly (la : Nat) (s s' : State) : Prop where
  ent : s'.entries = s.entries
  fld : s'.fldMaps = s.fldMaps
  ops : s'.ops = s.ops
  len : s'.strMaps.length = s.strMaps.length
  frame : ∀ i, i ≠ la → s'.getStrMap i = s.getStrMap i

/-- A state change that only touches the field map at address da. -/
structure FldOnly (da : Nat) (s s' : State) : Prop where
  ent : s'.entries = s.entries
  str : s'.strMaps = s.strMaps
  ops : s'.ops = s.ops
  len : s'.fldMaps.length = s.fldMaps.length
  frame : ∀ i, i ≠ da → s'.getFldMap i = s.getFldMap i

theorem strOnly_refl (la : Nat) (s : State) : StrOnly la s s :=
  ⟨rfl, rfl, rfl, rfl, fun _ _ => rfl⟩

theorem strOnly_trans {la : Nat} {s1 s2 s3 : State} (h1 : StrOnly la s1 s2)
    (h2 : StrOnly la s2 s3) : StrOnly la s1 s3 :=
  ⟨h2.ent.trans h1.ent, h2.fld.trans h1.fld, h2.ops.trans h1.ops,
   h2.len.trans h1.len, fun i hi => (h2.frame i hi).trans (h1.frame i hi)⟩

theorem fldOnly_refl (da : Nat) (s : State) : FldOnly da s s :=
  ⟨rfl, rfl, rfl, rfl, fun _ _ => rfl⟩

theorem fldOnly_trans {da : Nat} {s1 s2 s3 : State} (h1 : FldOnly da s1 s2)
    (h2 : FldOnly da s2 s3) : FldOnly da s1 s3 :=
  ⟨h2.ent.trans h1.ent, h2.str.trans h1.str, h2.ops.trans h1.ops,
   h2.len.trans h1.len, fun i hi => (h2.frame i hi).trans (h1.frame i hi)⟩

theorem strOnly_insLabelRaw (s : State) (la : Nat) (k v : String) :
    StrOnly la s (insLabelRaw s la k v) :=
  ⟨rfl, rfl, rfl, by simp [insLabelRaw, State.setStrMap],
   fun i hi => getStrMap_set_ne s _ la i (fun h => hi h.symm)⟩

theorem fldOnly_insDetailRaw (s : State) (da : Nat) (k : String) (v : Value) :
    FldOnly da s (insDetailRaw s da k v) :=
  ⟨rfl, rfl, rfl, by simp [insDetailRaw, State.setFldMap],
   fun i hi => getFldMap_set_ne s _ da i (fun h => hi h.symm)⟩

theorem strOnly_foldl (la : Nat) (l : List (String × Value)) (s : State) :
    StrOnly la s
      (l.foldl (fun st kv => insLabelRaw st la kv.1 (fmtSprint kv.2)) s) := by
  induction l generalizing s with
  | nil => exact strOnly_refl la s
  | cons kv rest ih =>
    exact strOnly_trans (strOnly_insLabelRaw s la kv.1 (fmtSprint kv.2)) (ih _)

theorem fldOnly_foldl (da : Nat) (l : List (String × Value)) (s : State) :
    FldOnly da s (l.foldl (fun st kv => insDetailRaw st da kv.1 kv.2) s) := by
  induction l generalizing s with
  | nil => exact fldOnly_refl da s
  | cons kv rest ih =>
    exact fldOnly_trans (fldOnly_insDetailRaw s da kv.1 kv.2) (ih _)

theorem getEntry_congr {s s' : State} (h : s'.entries = s.entries) (i : Nat) :
    s'.getEntry i = s.getEntry i := by
  simp [State.getEntry, h]

theorem getStrMap_congr {s s' : State} (h : s'.strMaps = s.strMaps) (i : Nat) :
    s'.getStrMap i = s.getStrMap i := by
  simp [State.getStrMap, h]

theorem getFldMap_congr {s s' : State} (h : s'.fldMaps = s.fldMaps) (i : Nat) :
    s'.getFldMap i = s.getFldMap i := by
  simp [State.getFldMap, h]

theorem getOp_congr {s s' : State} (h : s'.ops = s.ops) (i : Nat) :
    s'.getOp i = s.getOp i := by
  simp [State.getOp, h]

/-- The footprint of a clone-based chaining operation applied to the entry
at some address of s: the child is the fresh entry address, its maps are
fresh, and no heap cell that existed before the call is modified. -/
structure CloneOpLocal (s s' : State) (c' : Nat) : Prop where
  centry : c' = s.entries.length
  entLen : s.entries.length ≤ s'.entries.length
  strLen : s.strMaps.length ≤ s'.strMaps.length
  fldLen : s.fldMaps.length ≤ s'.fldMaps.length
  opsLen : s.ops.length ≤ s'.ops.length
  entFrame : ∀ i, i < s.entries.length → s'.getEntry i = s.getEntry i
  strFrame : ∀ i, i < s.strMaps.length → s'.getStrMap i = s.getStrMap i
  fldFrame : ∀ i, i < s.fldMaps.length → s'.getFldMap i = s.getFldMap i
  opsFrame : ∀ i, i < s.ops.length → s'.getOp i = s.getOp i
  cbound : c' < s'.entries.length
  childLbl : ∀ b, (s'.getEntry c').labels = some b → s.strMaps.length ≤ b
  childDtl : ∀ b, (s'.getEntry c').details = some b → s.fldMaps.length ≤ b

/-- The footprint of one chaining step from child c: existing heap cells
other than c's entry object and c's own maps are untouched, and the
resulting child either is c itself or is fresh with fresh or inherited
maps. -/
structure ChainLocal (s : State) (c : Nat) (s' : State) (c' : Nat) : Prop where
  entLen : s.entries.length ≤ s'.entries.length
  strLen : s.strMaps.length ≤ s'.strMaps.length
  fldLen : s.fldMaps.length ≤ s'.fldMaps.length
  opsLen : s.ops.length ≤ s'.ops.length
  entFrame : ∀ i, i < s.entries.length → i ≠ c → s'.getEntry i = s.getEntry i
  strFrame : ∀ i, i < s.strMaps.length → (s.getEntry c).labels ≠ some i →
      s'.getStrMap i = s.getStrMap i
  fldFrame : ∀ i, i < s.fldMaps.length → (s.getEntry c).details ≠ some i →
      s'.getFldMap i = s.getFldMap i
  opsFrame : ∀ i, i < s.ops.length → s'.getOp i = s.getOp i
  child : c' = c ∨ (s.entries.length ≤ c' ∧ c' < s'.entries.length)
  childLbl : ∀ b, (s'.getEntry c').labels = some b →
      (s.getEntry c).labels = some b ∨ s.strMaps.length ≤ b
  childDtl : ∀ b, (s'.getEntry c').details = some b →
      (s.getEntry c).details = some b ∨ s.fldMaps.length ≤ b

theorem chainLocal_of_cloneOp {s s' : State} {c c' : Nat}
    (h : CloneOpLocal s s' c') : ChainLocal s c s' c' :=
  ⟨h.entLen, h.strLen, h.fldLen, h.opsLen,
   fun i hi _ => h.entFrame i hi,
   fun i hi _ => h.strFrame i hi,
   fun i hi _ => h.fldFrame i hi,
   h.opsFrame,
   Or.inr ⟨h.centry ▸ Nat.le_refl _, h.cbound⟩,
   fun b hb => Or.inr (h.childLbl b hb),
   fun b hb => Or.inr (h.childDtl b hb)⟩

/-- Composing a clone-op footprint with a change confined to a string map
at or above the old heap top. -/
theorem cloneOpLocal_str {s s1 s2 : State} {c1 la : Nat}
    (h : CloneOpLocal s s1 c1) (hla : s.strMaps.length ≤ la)
    (h2 : StrOnly la s1 s2) : CloneOpLocal s s2 c1 :=
  ⟨h.centry,
   h.entLen.trans (Nat.le_of_eq (congrArg List.length h2.ent).symm),
   h.strLen.trans (Nat.le_of_eq h2.len.symm),
   h.fldLen.trans (Nat.le_of_eq (congrArg List.length h2.fld).symm),
   h.opsLen.trans (Nat.le_of_eq (congrArg List.length h2.ops).symm),
   fun i hi => (getEntry_congr h2.ent i).trans (h.entFrame i hi),
   fun i hi =>
     (h2.frame i (fun he => Nat.lt_irrefl la (Nat.lt_of_lt_of_le (he ▸ hi) hla))).trans
       (h.strFrame i hi),
   fun i hi => (getFldMap_congr h2.fld i).trans (h.fldFrame i hi),
   fun i hi => (getOp_congr h2.ops i).trans (h.opsFrame i hi),
   Nat.lt_of_lt_of_eq h.cbound (congrArg List.length h2.ent).symm,
   fun b hb => h.childLbl b ((getEntry_congr h2.ent c1) ▸ hb),
   fun b hb => h.childDtl b ((getEntry_congr h2.ent c1) ▸ hb)⟩

/-- Composing a clone-op footprint with a change confined to a field map at
or above the old heap top. -/
theorem cloneOpLocal_fld {s s1 s2 : State} {c1 da : Nat}
    (h : CloneOpLocal s s1 c1) (hda : s.fldMaps.length ≤ da)
    (h2 : FldOnly da s1 s2) : CloneOpLocal s s2 c1 :=
  ⟨h.centry,
   h.entLen.trans (Nat.le_of_eq (congrArg List.length h2.ent).symm),
   h.strLen.trans (Nat.le_of_eq (congrArg List.length h2.str).symm),
   h.fldLen.trans (Nat.le_of_eq h2.len.symm),
   h.opsLen.trans (Nat.le_of_eq (congrArg List.length h2.ops).symm),
   fun i hi => (getEntry_congr h2.ent i).trans (h.entFrame i hi),
   fun i hi => (getStrMap_congr h2.str i).trans (h.strFrame i hi),
   fun i hi =>
     (h2.frame i (fun he => Nat.lt_irrefl da (Nat.lt_of_lt_of_le (he ▸ hi) hda))).trans
       (h.fldFrame i hi),
   fun i hi => (getOp_congr h2.ops i).trans (h.opsFrame i hi),
   Nat.lt_of_lt_of_eq h.cbound (congrArg List.length h2.ent).symm,
   fun b hb => h.childLbl b ((getEntry_congr h2.ent c1) ▸ hb),
   fun b hb => h.childDtl b ((getEntry_congr h2.ent c1) ▸ hb)⟩

/-- The clone itself has a clone-op footprint. -/
theorem cloneOpLocal_of_spec {s s' : State} {c c' : Nat}
    (cs : CloneSpec s c s' c') : CloneOpLocal s s' c' := by
  refine ⟨cs.centry, by rw [cs.entLen]; omega, cs.strLen, cs.fldLen,
      Nat.le_of_eq (congrArg List.length cs.opsEq).symm,
      cs.entFrame, cs.strFrame, cs.fldFrame,
      fun i _ => getOp_congr cs.opsEq i,
      by rw [cs.centry, cs.entLen]; omega, ?_, ?_⟩
  · intro b hb
    rw [cs.child] at hb
    rcases hx : (s.getEntry c).labels with _ | a <;> rw [hx] at hb <;> simp at hb
    omega
  · intro b hb
    rw [cs.child] at hb
    rcases hx : (s.getEntry c).details with _ | a <;> rw [hx] at hb <;> simp at hb
    omega

/-- clone followed by one update of the child entry that keeps its labels
and details addresses still has a clone-op footprint. -/
theorem cloneOpLocal_setChild (s : State) (ea : Nat) (f : Entry → Entry)
    (hlbl : ∀ e, (f e).labels = e.labels) (hdtl : ∀ e, (f e).details = e.details) :
    CloneOpLocal s
      ((clone s ea).1.setEntry (clone s ea).2
        (f ((clone s ea).1.getEntry (clone s ea).2)))
      (clone s ea).2 := by
  have cs := clone_spec s ea
  have hcb : (clone s ea).2 < (clone s ea).1.entries.length := by
    rw [cs.centry, cs.entLen]; omega
  refine ⟨cs.centry,
      by simp only [State.setEntry, List.length_set]; rw [cs.entLen]; omega,
      cs.strLen, cs.fldLen,
      Nat.le_of_eq (congrArg List.length cs.opsEq).symm,
      ?_,
      fun i hi => cs.strFrame i hi,
      fun i hi => cs.fldFrame i hi,
      fun i _ => getOp_congr cs.opsEq i,
      by simp only [State.setEntry, List.length_set]; rw [cs.centry, cs.entLen]; omega,
      ?_, ?_⟩
  · intro i hi
    have hne : i ≠ (clone s ea).2 := by rw [cs.centry]; omega
    rw [getEntry_set_ne _ _ _ _ (fun h => hne h.symm)]
    exact cs.entFrame i hi
  · intro b hb
    rw [getEntry_set_self _ _ _ hcb, hlbl, cs.child] at hb
    rcases hx : (s.getEntry ea).labels with _ | a <;> rw [hx] at hb <;> simp at hb
    omega
  · intro b hb
    rw [getEntry_set_self _ _ _ hcb, hdtl, cs.child] at hb
    rcases hx : (s.getEntry ea).details with _ | a <;> rw [hx] at hb <;> simp at hb
    omega

/-- clone followed by giving the child a fresh empty labels map still has a
clone-op footprint. -/
theorem cloneOpLocal_allocLbl (s : State) (ea : Nat) :
    CloneOpLocal s
      (((clone s ea).1.allocStrMap []).1.setEntry (clone s ea).2
        { ((clone s ea).1.allocStrMap []).1.getEntry (clone s ea).2 with
            labels := some ((clone s ea).1.allocStrMap []).2 })
      (clone s ea).2 := by
  have cs := clone_spec s ea
  have hcb : (clone s ea).2 < ((clone s ea).1.allocStrMap []).1.entries.length := by
    show (clone s ea).2 < (clone s ea).1.entries.length
    rw [cs.centry, cs.entLen]; omega
  refine ⟨cs.centry,
      by simp only [State.setEntry, List.length_set]
         show s.entries.length ≤ (clone s ea).1.entries.length
         rw [cs.entLen]; omega,
      by simp only [State.setEntry, State.allocStrMap, List.length_set,
            List.length_append]
         exact Nat.le_trans cs.strLen (by omega),
      cs.fldLen,
      Nat.le_of_eq (congrArg List.length cs.opsEq).symm,
      ?_, ?_,
      fun i hi => cs.fldFrame i hi,
      fun i _ => getOp_congr cs.opsEq i,
      by simp only [State.setEntry, List.length_set]
         rw [cs.centry]
         show s.entries.length < (clone s ea).1.entries.length
         rw [cs.entLen]; omega,
      ?_, ?_⟩
  · intro i hi
    have hne : i ≠ (clone s ea).2 := by rw [cs.centry]; omega
    rw [getEntry_set_ne _ _ _ _ (fun h => hne h.symm)]
    exact cs.entFrame i hi
  · intro i hi
    have hi1 : i < (clone s ea).1.strMaps.length := Nat.lt_of_lt_of_le hi cs.strLen
    show ((clone s ea).1.allocStrMap []).1.getStrMap i = s.getStrMap i
    rw [getStrMap_alloc_lt _ _ i hi1]
    exact cs.strFrame i hi
  · intro b hb
    rw [getEntry_set_self _ _ _ hcb] at hb
    have hby : ((clone s ea).1.allocStrMap []).2 = b := Option.some.inj hb
    rw [← hby]
    show s.strMaps.length ≤ (clone s ea).1.strMaps.length
    exact cs.strLen
  · intro b hb
    rw [getEntry_set_self _ _ _ hcb] at hb
    have hd : (((clone s ea).1.allocStrMap []).1.getEntry (clone s ea).2).details =
        some b := hb
    have hd2 : ((clone s ea).1.getEntry (clone s ea).2).details = some b := hd
    rw [cs.child] at hd2
    rcases hx : (s.getEntry ea).details with _ | a <;> rw [hx] at hd2 <;> simp at hd2
    omega

/-- clone followed by giving the child a fresh empty details map still has
a clone-op footprint. -/
theorem cloneOpLocal_allocDtl (s : State) (ea : Nat) :
    CloneOpLocal s
      (((clone s ea).1.allocFldMap []).1.setEntry (clone s ea).2
        { ((clone s ea).1.allocFldMap []).1.getEntry (clone s ea).2 with
            details := some ((clone s ea).1.allocFldMap []).2 })
      (clone s ea).2 := by
  have cs := clone_spec s ea
  have hcb : (clone s ea).2 < ((clone s ea).1.allocFldMap []).1.entries.length := by
    show (clone s ea).2 < (clone s ea).1.entries.length
    rw [cs.centry, cs.entLen]; omega
  refine ⟨cs.centry,
      by simp only [State.setEntry, List.length_set]
         show s.entries.length ≤ (clone s ea).1.entries.length
         rw [cs.entLen]; omega,
      cs.strLen,
      by simp only [State.setEntry, State.allocFldMap, List.length_set,
            List.length_append]
         exact Nat.le_trans cs.fldLen (by omega),
      Nat.le_of_eq (congrArg List.length cs.opsEq).symm,
      ?_,
      fun i hi => cs.strFrame i hi,
      ?_,
      fun i _ => getOp_congr cs.opsEq i,
      by simp only [State.setEntry, List.length_set]
         rw [cs.centry]
         show s.entries.length < (clone s ea).1.entries.length
         rw [cs.entLen]; omega,
      ?_, ?_⟩
  · intro i hi
    have hne : i ≠ (clone s ea).2 := by rw [cs.centry]; omega
    rw [getEntry_set_ne _ _ _ _ (fun h => hne h.symm)]
    exact cs.entFrame i hi
  · intro i hi
    have hi1 : i < (clone s ea).1.fldMaps.length := Nat.lt_of_lt_of_le hi cs.fldLen
    show ((clone s ea).1.allocFldMap []).1.getFldMap i = s.getFldMap i
    rw [getFldMap_alloc_lt _ _ i hi1]
    exact cs.fldFrame i hi
  · intro b hb
    rw [getEntry_set_self _ _ _ hcb] at hb
    have hl : ((clone s ea).1.getEntry (clone s ea).2).labels = some b := hb
    rw [cs.child] at hl
    rcases hx : (s.getEntry ea).labels with _ | a <;> rw [hx] at hl <;> simp at hl
    omega
  · intro b hb
    rw [getEntry_set_self _ _ _ hcb] at hb
    have : ((clone s ea).1.allocFldMap []).2 = b := Option.some.inj hb
    rw [← this]
    show s.fldMaps.length ≤ (clone s ea).1.fldMaps.length
    exact cs.fldLen

theorem cloneOp_withError (s : State) (ea : Nat) (err : Option String) :
    CloneOpLocal s (Entry.WithError s ea err).1 (Entry.WithError s ea err).2 := by
  simp only [Entry.WithError]
  exact cloneOpLocal_setChild s ea
    (fun e => { e with err := match err with | some msg => msg | none => "" })
    (fun _ => rfl) (fun _ => rfl)

theorem cloneOp_withSpan (s : State) (ea : Nat) (sc : SpanContext) :
    CloneOpLocal s (Entry.WithSpan s ea sc).1 (Entry.WithSpan s ea sc).2 := by
  simp only [Entry.WithSpan]
  exact cloneOpLocal_setChild s ea
    (fun e => { e with
        trace := "projects/" ++ (s.getLogger (s.getEntry ea).logger).project ++
          "/traces/" ++ sc.traceID,
        spanId := sc.spanID, traceSampled := sc.sampled })
    (fun _ => rfl) (fun _ => rfl)

theorem cloneOp_withStack (s : State) (ea skip : Nat) (env : RuntimeEnv) :
    CloneOpLocal s (Entry.withStack s ea skip env).1
      (Entry.withStack s ea skip env).2 := by
  simp only [Entry.withStack]
  exact cloneOpLocal_setChild s ea
    (fun e => { e with stack := runtimeCallers env skip 16 })
    (fun _ => rfl) (fun _ => rfl)

theorem cloneOp_withLabels (s : State) (ea : Nat)
    (lbls : List (String × Value)) :
    CloneOpLocal s (Entry.WithLabels s ea lbls).1 (Entry.WithLabels s ea lbls).2 := by
  have cs := clone_spec s ea
  simp only [Entry.WithLabels]
  rcases hx : (s.getEntry ea).labels with _ | a
  · have hchild : ((clone s ea).1.getEntry (clone s ea).2).labels = none := by
      rw [cs.child, hx]
      rfl
    rw [hchild]
    exact cloneOpLocal_str (cloneOpLocal_allocLbl s ea)
      (cs.strLen.trans (Nat.le_of_eq rfl))
      (strOnly_foldl _ lbls _)
  · have hchild : ((clone s ea).1.getEntry (clone s ea).2).labels =
        some s.strMaps.length := by
      rw [cs.child, hx]
      rfl
    rw [hchild]
    exact cloneOpLocal_str (cloneOpLocal_of_spec cs) (Nat.le_refl _)
      (strOnly_foldl _ lbls _)

theorem cloneOp_withDetail (s : State) (ea : Nat) (k : String) (v : Value) :
    CloneOpLocal s (Entry.WithDetail s ea k v).1 (Entry.WithDetail s ea k v).2 := by
  have cs := clone_spec s ea
  simp only [Entry.WithDetail]
  rcases hx : (s.getEntry ea).details with _ | a
  · have hchild : ((clone s ea).1.getEntry (clone s ea).2).details = none := by
      rw [cs.child, hx]
      rfl
    rw [hchild]
    exact cloneOpLocal_fld (cloneOpLocal_allocDtl s ea)
      (cs.fldLen.trans (Nat.le_of_eq rfl))
      (fldOnly_insDetailRaw _ _ k v)
  · have hchild : ((clone s ea).1.getEntry (clone s ea).2).details =
        some s.fldMaps.length := by
      rw [cs.child, hx]
      rfl
    rw [hchild]
    exact cloneOpLocal_fld (cloneOpLocal_of_spec cs) (Nat.le_refl _)
      (fldOnly_insDetailRaw _ _ k v)

theorem cloneOp_withDetails (s : State) (ea : Nat)
    (dtls : List (String × Value)) :
    CloneOpLocal s (Entry.WithDetails s ea dtls).1
      (Entry.WithDetails s ea dtls).2 := by
  have cs := clone_spec s ea
  simp only [Entry.WithDetails]
  rcases hx : (s.getEntry ea).details with _ | a
  · have hchild : ((clone s ea).1.getEntry (clone s ea).2).details = none := by
      rw [cs.child, hx]
      rfl
    rw [hchild]
    exact cloneOpLocal_fld (cloneOpLocal_allocDtl s ea)
      (cs.fldLen.trans (Nat.le_of_eq rfl))
      (fldOnly_foldl _ dtls _)
  · have hchild : ((clone s ea).1.getEntry (clone s ea).2).details =
        some s.fldMaps.length := by
      rw [cs.child, hx]
      rfl
    rw [hchild]
    exact cloneOpLocal_fld (cloneOpLocal_of_spec cs) (Nat.le_refl _)
      (fldOnly_foldl _ dtls _)

theorem getEntry_set_labels (s : State) (e : Entry) (c : Nat)
    (h : e.labels = (s.getEntry c).labels) :
    ((s.setEntry c e).getEntry c).labels = (s.getEntry c).labels := by
  by_cases hc : c < s.entries.length
  · rw [getEntry_set_self s e c hc]
    exact h
  · rw [State.setEntry, List.set_eq_of_length_le (Nat.le_of_not_lt hc)]

theorem getEntry_set_details (s : State) (e : Entry) (c : Nat)
    (h : e.details = (s.getEntry c).details) :
    ((s.setEntry c e).getEntry c).details = (s.getEntry c).details := by
  by_cases hc : c < s.entries.length
  · rw [getEntry_set_self s e c hc]
    exact h
  · rw [State.setEntry, List.set_eq_of_length_le (Nat.le_of_not_lt hc)]

theorem chainLocal_withOperation (s : State) (c : Nat) (id producer : String) :
    ChainLocal s c (Entry.WithOperation s c id producer).1
      (Entry.WithOperation s c id producer).2 := by
  simp only [Entry.WithOperation]
  refine ⟨?_, Nat.le_refl _, Nat.le_refl _, ?_, ?_,
      fun i _ _ => rfl, fun i _ _ => rfl,
      fun i hi => getOp_alloc_lt s _ i hi,
      Or.inl rfl, ?_, ?_⟩
  · simp only [State.setEntry, List.length_set]
    exact Nat.le_refl _
  · simp only [State.setEntry, State.allocOp, List.length_append]
    omega
  · intro i _ hne
    exact getEntry_set_ne _ _ _ _ (fun h => hne h.symm)
  · intro b hb
    have hx := getEntry_set_labels
      (s.allocOp { id := id, producer := producer, first := false, last := false }).1
      { (s.allocOp
          { id := id, producer := producer, first := false, last := false }).1.getEntry c with
          operation := some (s.allocOp
            { id := id, producer := producer, first := false, last := false }).2 }
      c rfl
    rw [hx] at hb
    exact Or.inl hb
  · intro b hb
    have hx := getEntry_set_details
      (s.allocOp { id := id, producer := producer, first := false, last := false }).1
      { (s.allocOp
          { id := id, producer := producer, first := false, last := false }).1.getEntry c with
          operation := some (s.allocOp
            { id := id, producer := producer, first := false, last := false }).2 }
      c rfl
    rw [hx] at hb
    exact Or.inl hb

theorem chainLocal_insLabel (s : State) (c a : Nat) (k v : String)
    (h : (s.getEntry c).labels = some a) :
    ChainLocal s c (insLabelRaw s a k v) c := by
  refine ⟨Nat.le_refl _, ?_, Nat.le_refl _, Nat.le_refl _,
      fun i _ _ => rfl, ?_, fun i _ _ => rfl, fun i _ => rfl,
      Or.inl rfl, fun b hb => Or.inl hb, fun b hb => Or.inl hb⟩
  · simp only [insLabelRaw, State.setStrMap, List.length_set]
    exact Nat.le_refl _
  · intro i _ hne
    have hia : i ≠ a := fun he => hne (he ▸ h)
    exact getStrMap_set_ne s _ a i (fun he => hia he.symm)

theorem chainLocal_insDetail (s : State) (c a : Nat) (k : String) (v : Value)
    (h : (s.getEntry c).details = some a) :
    ChainLocal s c (insDetailRaw s a k v) c := by
  refine ⟨Nat.le_refl _, Nat.le_refl _, ?_, Nat.le_refl _,
      fun i _ _ => rfl, fun i _ _ => rfl, ?_, fun i _ => rfl,
      Or.inl rfl, fun b hb => Or.inl hb, fun b hb => Or.inl hb⟩
  · simp only [insDetailRaw, State.setFldMap, List.length_set]
    exact Nat.le_refl _
  · intro i _ hne
    have hia : i ≠ a := fun he => hne (he ▸ h)
    exact getFldMap_set_ne s _ a i (fun he => hia he.symm)

/-- One step of further chaining or direct map mutation performed on the
child entry: any With operation of the Entry API, or an insertion into the
child's labels or details map through the exported fields. -/
inductive ChainStep : State × Nat → State × Nat → Prop where
  | withLabels (s : State) (c : Nat) (lbls : List (String × Value)) :
      ChainStep (s, c) (Entry.WithLabels s c lbls)
  | withDetail (s : State) (c : Nat) (k : String) (v : Value) :
      ChainStep (s, c) (Entry.WithDetail s c k v)
  | withDetails (s : State) (c : Nat) (dtls : List (String × Value)) :
      ChainStep (s, c) (Entry.WithDetails s c dtls)
  | withError (s : State) (c : Nat) (err : Option String) :
      ChainStep (s, c) (Entry.WithError s c err)
  | withSpan (s : State) (c : Nat) (sc : SpanContext) :
      ChainStep (s, c) (Entry.WithSpan s c sc)
  | withStack (s : State) (c : Nat) (env : RuntimeEnv) :
      ChainStep (s, c) (Entry.WithStack s c env)
  | withOperation (s : State) (c : Nat) (id producer : String) :
      ChainStep (s, c) (Entry.WithOperation s c id producer)
  | insLabel (s : State) (c a : Nat) (k v : String)
      (h : (s.getEntry c).labels = some a) :
      ChainStep (s, c) (insLabelRaw s a k v, c)
  | insDetail (s : State) (c a : Nat) (k : String) (v : Value)
      (h : (s.getEntry c).details = some a) :
      ChainStep (s, c) (insDetailRaw s a k v, c)

theorem chainStep_local {p q : State × Nat} (h : ChainStep p q) :
    ChainLocal p.1 p.2 q.1 q.2 := by
  cases h with
  | withLabels s c lbls => exact chainLocal_of_cloneOp (cloneOp_withLabels s c lbls)
  | withDetail s c k v => exact chainLocal_of_cloneOp (cloneOp_withDetail s c k v)
  | withDetails s c dtls =>
    exact chainLocal_of_cloneOp (cloneOp_withDetails s c dtls)
  | withError s c err => exact chainLocal_of_cloneOp (cloneOp_withError s c err)
  | withSpan s c sc => exact chainLocal_of_cloneOp (cloneOp_withSpan s c sc)
  | withStack s c env =>
    exact chainLocal_of_cloneOp (cloneOp_withStack s c 3 env)
  | withOperation s c id producer => exact chainLocal_withOperation s c id producer
  | insLabel s c a k v h => exact chainLocal_insLabel s c a k v h
  | insDetail s c a k v h => exact chainLocal_insDetail s c a k v h

theorem optBoundB_intro {o : Option Nat} {n : Nat}
    (h : ∀ a, o = some a → a < n) : optBoundB o n = true := by
  cases o with
  | none => rfl
  | some a => simpa [optBoundB] using h a rfl

theorem optNeB_intro {o p : Option Nat}
    (h : ∀ a b, o = some a → p = some b → a ≠ b) : optNeB o p = true := by
  cases o with
  | none => cases p <;> rfl
  | some a =>
    cases p with
    | none => rfl
    | some b => simpa [optNeB] using h a b rfl rfl

theorem entryBounds_spec {s : State} {e : Nat} (h : entryBounds s e = true) :
    e < s.entries.length ∧
    (∀ a, (s.getEntry e).labels = some a → a < s.strMaps.length) ∧
    (∀ a, (s.getEntry e).details = some a → a < s.fldMaps.length) ∧
    (∀ a, (s.getEntry e).operation = some a → a < s.ops.length) := by
  simp only [entryBounds, Bool.and_eq_true, decide_eq_true_eq] at h
  exact ⟨h.1.1.1, fun a ha => optBoundB_elim h.1.1.2 ha,
    fun a ha => optBoundB_elim h.1.2 ha, fun a ha => optBoundB_elim h.2 ha⟩

theorem entryBounds_intro {s : State} {e : Nat}
    (h1 : e < s.entries.length)
    (h2 : ∀ a, (s.getEntry e).labels = some a → a < s.strMaps.length)
    (h3 : ∀ a, (s.getEntry e).details = some a → a < s.fldMaps.length)
    (h4 : ∀ a, (s.getEntry e).operation = some a → a < s.ops.length) :
    entryBounds s e = true := by
  simp only [entryBounds, Bool.and_eq_true, decide_eq_true_eq]
  exact ⟨⟨⟨h1, optBoundB_intro h2⟩, optBoundB_intro h3⟩, optBoundB_intro h4⟩

theorem sep_spec {s : State} {e c : Nat} (h : sep s e c = true) :
    e ≠ c ∧ entryBounds s e = true ∧ c < s.entries.length ∧
    (∀ a b, (s.getEntry e).labels = some a →
      (s.getEntry c).labels = some b → a ≠ b) ∧
    (∀ a b, (s.getEntry e).details = some a →
      (s.getEntry c).details = some b → a ≠ b) := by
  simp only [sep, Bool.and_eq_true, bne_iff_ne, ne_eq, decide_eq_true_eq] at h
  exact ⟨h.1.1.1.1, h.1.1.1.2, h.1.1.2,
    fun a b ha hb => optNeB_elim h.1.2 ha hb,
    fun a b ha hb => optNeB_elim h.2 ha hb⟩

theorem sep_intro {s : State} {e c : Nat} (h1 : e ≠ c)
    (h2 : entryBounds s e = true) (h3 : c < s.entries.length)
    (h4 : ∀ a b, (s.getEntry e).labels = some a →
      (s.getEntry c).labels = some b → a ≠ b)
    (h5 : ∀ a b, (s.getEntry e).details = some a →
      (s.getEntry c).details = some b → a ≠ b) :
    sep s e c = true := by
  simp only [sep, Bool.and_eq_true, bne_iff_ne, ne_eq, decide_eq_true_eq]
  exact ⟨⟨⟨⟨h1, h2⟩, h3⟩, optNeB_intro h4⟩, optNeB_intro h5⟩

theorem optMap_getD_congr {α : Type} (o : Option Nat) (f g : Nat → α) (d : α)
    (h : ∀ a, o = some a → f a = g a) :
    (o.map f).getD d = (o.map g).getD d := by
  cases o with
  | none => rfl
  | some a => simpa using h a rfl

/-- An entry view is unchanged under a state change that leaves its entry
object and all of its referenced heap cells alone. -/
theorem entryView_frames {s s' : State} {e : Nat}
    (hee : s'.getEntry e = s.getEntry e)
    (hstr : ∀ a, (s.getEntry e).labels = some a →
      s'.getStrMap a = s.getStrMap a)
    (hfld : ∀ a, (s.getEntry e).details = some a →
      s'.getFldMap a = s.getFldMap a)
    (hop : ∀ a, (s.getEntry e).operation = some a → s'.getOp a = s.getOp a) :
    entryView s' e = entryView s e := by
  simp only [entryView]
  rw [hee]
  have h2 := optMap_getD_congr (s.getEntry e).labels
    (fun a => s'.getStrMap a) (fun a => s.getStrMap a) [] hstr
  have h3 := optMap_getD_congr (s.getEntry e).details
    (fun a => s'.getFldMap a) (fun a => s.getFldMap a) [] hfld
  have h4 : ((s.getEntry e).operation).map (fun a => s'.getOp a) =
      ((s.getEntry e).operation).map (fun a => s.getOp a) := by
    cases hop2 : (s.getEntry e).operation with
    | none => rfl
    | some oa => simp [hop oa hop2]
  rw [h2, h3, h4]

/-- Applying one chain step to the child keeps the parent separate and its
view intact. -/
theorem sep_step {s s' : State} {e c c' : Nat} (hs : sep s e c = true)
    (hl : ChainLocal s c s' c') :
    sep s' e c' = true ∧ entryView s' e = entryView s e := by
  obtain ⟨hec, hb, hcb, hnl, hnd⟩ := sep_spec hs
  obtain ⟨he, hbl, hbd, hbo⟩ := entryBounds_spec hb
  have hee : s'.getEntry e = s.getEntry e := hl.entFrame e he hec
  have hview : entryView s' e = entryView s e := by
    apply entryView_frames hee
    · intro a ha
      exact hl.strFrame a (hbl a ha) (fun hca => (hnl a a ha hca) rfl)
    · intro a ha
      exact hl.fldFrame a (hbd a ha) (fun hca => (hnd a a ha hca) rfl)
    · intro a ha
      exact hl.opsFrame a (hbo a ha)
  refine ⟨?_, hview⟩
  have he' : e < s'.entries.length := Nat.lt_of_lt_of_le he hl.entLen
  have heb' : entryBounds s' e = true := by
    apply entryBounds_intro he'
    · intro a ha
      rw [hee] at ha
      exact Nat.lt_of_lt_of_le (hbl a ha) hl.strLen
    · intro a ha
      rw [hee] at ha
      exact Nat.lt_of_lt_of_le (hbd a ha) hl.fldLen
    · intro a ha
      rw [hee] at ha
      exact Nat.lt_of_lt_of_le (hbo a ha) hl.opsLen
  have hec' : e ≠ c' := by
    rcases hl.child with h | ⟨hge, _⟩
    · rw [h]
      exact hec
    · omega
  have hcb' : c' < s'.entries.length := by
    rcases hl.child with h | ⟨_, hlt⟩
    · rw [h]
      exact Nat.lt_of_lt_of_le hcb hl.entLen
    · exact hlt
  apply sep_intro hec' heb' hcb'
  · intro a b ha hbl2
    rw [hee] at ha
    rcases hl.childLbl b hbl2 with hcold | hfresh
    · exact hnl a b ha hcold
    · have := hbl a ha
      omega
  · intro a b ha hbd2
    rw [hee] at ha
    rcases hl.childDtl b hbd2 with hcold | hfresh
    · exact hnd a b ha hcold
    · have := hbd a ha
      omega

/-- A clone-based chaining operation applied to an in-bounds entry e leaves
e separate from the new child and e's view intact. -/
theorem sep_init {s : State} {e : Nat} {s' : State} {c : Nat}
    (hb : entryBounds s e = true) (h : CloneOpLocal s s' c) :
    sep s' e c = true ∧ entryView s' e = entryView s e := by
  obtain ⟨he, hbl, hbd, hbo⟩ := entryBounds_spec hb
  have hee : s'.getEntry e = s.getEntry e := h.entFrame e he
  have hview : entryView s' e = entryView s e := by
    apply entryView_frames hee
    · intro a ha
      exact h.strFrame a (hbl a ha)
    · intro a ha
      exact h.fldFrame a (hbd a ha)
    · intro a ha
      exact h.opsFrame a (hbo a ha)
  refine ⟨?_, hview⟩
  have he' : e < s'.entries.length := Nat.lt_of_lt_of_le he h.entLen
  have heb' : entryBounds s' e = true := by
    apply entryBounds_intro he'
    · intro a ha
      rw [hee] at ha
      exact Nat.lt_of_lt_of_le (hbl a ha) h.strLen
    · intro a ha
      rw [hee] at ha
      exact Nat.lt_of_lt_of_le (hbd a ha) h.fldLen
    · intro a ha
      rw [hee] at ha
      exact Nat.lt_of_lt_of_le (hbo a ha) h.opsLen
  have hec : e ≠ c := by
    rw [h.centry]
    omega
  apply sep_intro hec heb' h.cbound
  · intro a b ha hbl2
    rw [hee] at ha
    have := h.childLbl b hbl2
    have := hbl a ha
    omega
  · intro a b ha hbd2
    rw [hee] at ha
    have := h.childDtl b hbd2
    have := hbd a ha
    omega

/-- Along any chain of further steps on the child, the parent stays
separate and its view stays intact. -/
theorem sep_chain {e : Nat} {p q : State × Nat}
    (h : Relation.ReflTransGen ChainStep p q) (hs : sep p.1 e p.2 = true) :
    sep q.1 e q.2 = true ∧ entryView q.1 e = entryView p.1 e := by
  induction h with
  | refl => exact ⟨hs, rfl⟩
  | tail h1 h2 ih =>
    obtain ⟨hs1, hv1⟩ := ih
    obtain ⟨hs2, hv2⟩ := sep_step hs1 (chainStep_local h2)
    exact ⟨hs2, hv2.trans hv1⟩

/-- What C1 asserts of one chaining operation applied to the entry at e:
the call returns a separate child, e's view and serialized output are
unchanged by the call, and they stay unchanged under every further chain
of With calls or direct map mutations on the child. -/
def ParentUntouched (s : State) (e : Nat) (p : State × Nat) : Prop :=
  sep p.1 e p.2 = true ∧ entryView p.1 e = entryView s e ∧
  encodeEntryAt p.1 e = encodeEntryAt s e ∧
  ∀ s2 c2, Relation.ReflTransGen ChainStep p (s2, c2) →
    entryView s2 e = entryView s e ∧ encodeEntryAt s2 e = encodeEntryAt s e

theorem parentUntouched_of_cloneOp {s : State} {e : Nat} {p : State × Nat}
    (hb : entryBounds s e = true) (h : CloneOpLocal s p.1 p.2) :
    ParentUntouched s e p := by
  obtain ⟨hsep, hview⟩ := sep_init hb h
  refine ⟨hsep, hview, encode_eq_of_view_eq _ _ _ hview, ?_⟩
  intro s2 c2 hrt
  obtain ⟨_, hv2⟩ := sep_chain hrt hsep
  have hv := hv2.trans hview
  exact ⟨hv, encode_eq_of_view_eq _ _ _ hv⟩

theorem getSource_frame (s : State) (env : RuntimeEnv) (d : Nat) :
    (getSource s env d).1.loggers = s.loggers ∧
    (getSource s env d).1.entries = s.entries ∧
    (getSource s env d).1.strMaps = s.strMaps ∧
    (getSource s env d).1.fldMaps = s.fldMaps ∧
    (getSource s env d).1.ops = s.ops ∧
    (getSource s env d).1.stderrLines = s.stderrLines := by
  rcases h1 : runtimeCaller env (d + 1) with _ | ci
  · simp [getSource, h1]
  · rcases h2 : cacheLookup s.sources ci.pc with _ | loc
    · simp [getSource, h1, h2]
    · simp [getSource, h1, h2]

theorem encodeEntry_congr {s s' : State} (hstr : s'.strMaps = s.strMaps)
    (hfld : s'.fldMaps = s.fldMaps) (hops : s'.ops = s.ops) (x : Entry) :
    encodeEntry s' x = encodeEntry s x := by
  unfold encodeEntry
  simp only [State.getFldMap, State.getStrMap, State.getOp, hstr, hfld, hops]

/-- The state after log's pre-lock phase: the source cache may have been
populated when the logger resolves sources. -/
def logPre (s : State) (la : Nat) (depth : Nat) (env : RuntimeEnv) : State :=
  if (s.getLogger la).sources then (getSource s env depth).1 else s

/-- The source location log attaches for this call. -/
def logSource (s : State) (la : Nat) (depth : Nat) (env : RuntimeEnv) :
    Option SourceLocation :=
  if (s.getLogger la).sources then (getSource s env depth).2 else none

/-- The stack trace string log renders for an entry: empty unless the entry
carries a captured stack, in which case the stack is formatted with the
entry's error string, or the message when no error is set, as the leading
line. -/
def logStackTrace (e : Entry) (m : String) (env : RuntimeEnv) : String :=
  if e.stack.length > 0 then
    formatStackTrace env (if e.err.length > 0 then e.err else m) e.stack
  else ""

/-- The value log writes over the entry under the lock. -/
def logEntry (s : State) (la ea : Nat) (sv m : String) (depth : Nat)
    (env : RuntimeEnv) : Entry :=
  { s.getEntry ea with
    sev := sv, message := m,
    sourceLocation := logSource s la depth env,
    stackTrace := logStackTrace (s.getEntry ea) m env }

theorem logPre_frame (s : State) (la : Nat) (depth : Nat) (env : RuntimeEnv) :
    (logPre s la depth env).loggers = s.loggers ∧
    (logPre s la depth env).entries = s.entries ∧
    (logPre s la depth env).strMaps = s.strMaps ∧
    (logPre s la depth env).fldMaps = s.fldMaps ∧
    (logPre s la depth env).ops = s.ops ∧
    (logPre s la depth env).stderrLines = s.stderrLines := by
  unfold logPre
  by_cases h : (s.getLogger la).sources = true
  · simp only [h, if_true]
    exact getSource_frame s env depth
  · simp only [h, if_false]
    exact ⟨rfl, rfl, rfl, rfl, rfl, rfl⟩

/-- Logger.log in normal form: the pre-lock state, the in-place entry
mutation, and either the appended record or the stderr diagnostic. -/
theorem log_eq (s : State) (la ea : Nat) (sv m : String) (depth : Nat)
    (env : RuntimeEnv) :
    Logger.log s la ea sv m depth env =
      match encodeEntry s (logEntry s la ea sv m depth env) with
      | .error msg =>
        { (logPre s la depth env).setEntry ea (logEntry s la ea sv m depth env) with
            stderrLines := s.stderrLines ++ ["could not marshal log: " ++ msg] }
      | .ok r =>
        ((logPre s la depth env).setEntry ea
            (logEntry s la ea sv m depth env)).setLogger la
          { s.getLogger la with out := (s.getLogger la).out ++ [r] } := by
  have gf := getSource_frame s env depth
  unfold Logger.log logEntry logSource logPre
  by_cases hsrc : (s.getLogger la).sources = true
  · have hgent : (getSource s env depth).1.getEntry ea = s.getEntry ea :=
      getEntry_congr gf.2.1 ea
    have hence : ∀ x : Entry,
        encodeEntry ((getSource s env depth).1.setEntry ea x) x =
          encodeEntry s x := by
      intro x
      exact encodeEntry_congr (by simpa [State.setEntry] using gf.2.2.1)
        (by simpa [State.setEntry] using gf.2.2.2.1)
        (by simpa [State.setEntry] using gf.2.2.2.2.1) x
    have hstderr : ∀ x : Entry,
        ((getSource s env depth).1.setEntry ea x).stderrLines = s.stderrLines := by
      intro x
      simpa [State.setEntry] using gf.2.2.2.2.2
    have hlogger : ∀ x : Entry,
        ((getSource s env depth).1.setEntry ea x).getLogger la = s.getLogger la := by
      intro x
      simp [State.setEntry, State.getLogger, gf.1]
    simp only []
    rw [if_pos hsrc, if_pos hsrc, if_pos hsrc]
    simp only [hgent, logStackTrace, hence, hstderr, hlogger]
  · have hence : ∀ x : Entry,
        encodeEntry (s.setEntry ea x) x = encodeEntry s x := by
      intro x
      exact encodeEntry_congr rfl rfl rfl x
    simp only []
    rw [if_neg hsrc, if_neg hsrc, if_neg hsrc]
    simp only [logStackTrace, hence]
    rfl

/-- An entry can be marshaled exactly when every value in its details map
is encodable. -/
def marshalsB (s : State) (x : Entry) : Bool :=
  ((x.details.map (fun a => s.getFldMap a)).getD []).all
    (fun kv => kv.2.encodable)

/-- The record encodeEntry produces when marshaling succeeds. -/
def encodeRec (s : State) (e : Entry) : Rec :=
  { message := e.message,
    severity := if e.sev = "" then none else some e.sev,
    labels :=
      match e.labels with
      | none => none
      | some a =>
        let m := s.getStrMap a
        if m.isEmpty then none else some m,
    sourceLocation := e.sourceLocation,
    operation := e.operation.map (fun a => encodeOp (s.getOp a)),
    trace := if e.trace = "" then none else some e.trace,
    spanId := if e.spanId = "" then none else some e.spanId,
    traceSampled := if e.traceSampled then some true else none,
    details :=
      match e.details with
      | none => none
      | some a =>
        let m := s.getFldMap a
        if m.isEmpty then none else some m,
    error := if e.err = "" then none else some e.err,
    exception := if e.stackTrace = "" then none else some e.stackTrace }

theorem encodeEntry_eq (s : State) (e : Entry) :
    encodeEntry s e =
      if marshalsB s e = true then Except.ok (encodeRec s e)
      else Except.error "json: unsupported type" := rfl

theorem encodeEntry_ok {s : State} {e : Entry} (h : marshalsB s e = true) :
    encodeEntry s e = Except.ok (encodeRec s e) := by
  rw [encodeEntry_eq, if_pos h]

theorem encodeEntry_err {s : State} {e : Entry} (h : marshalsB s e = false) :
    encodeEntry s e = Except.error "json: unsupported type" := by
  rw [encodeEntry_eq, if_neg (by simp [h])]

/-- The entry mutation log performs preserves every field it does not
assign. -/
theorem logEntry_fields (s : State) (la ea : Nat) (sv m : String)
    (depth : Nat) (env : RuntimeEnv) :
    (logEntry s la ea sv m depth env).sev = sv ∧
    (logEntry s la ea sv m depth env).message = m ∧
    (logEntry s la ea sv m depth env).sourceLocation = logSource s la depth env ∧
    (logEntry s la ea sv m depth env).stackTrace =
      logStackTrace (s.getEntry ea) m env ∧
    (logEntry s la ea sv m depth env).logger = (s.getEntry ea).logger ∧
    (logEntry s la ea sv m depth env).stack = (s.getEntry ea).stack ∧
    (logEntry s la ea sv m depth env).labels = (s.getEntry ea).labels ∧
    (logEntry s la ea sv m depth env).details = (s.getEntry ea).details ∧
    (logEntry s la ea sv m depth env).operation = (s.getEntry ea).operation ∧
    (logEntry s la ea sv m depth env).err = (s.getEntry ea).err :=
  ⟨rfl, rfl, rfl, rfl, rfl, rfl, rfl, rfl, rfl, rfl⟩

/-- Heap cells log never touches: maps, operations, entry count, and every
other entry object. -/
theorem log_frame (s : State) (la ea : Nat) (sv m : String) (depth : Nat)
    (env : RuntimeEnv) :
    (Logger.log s la ea sv m depth env).strMaps = s.strMaps ∧
    (Logger.log s la ea sv m depth env).fldMaps = s.fldMaps ∧
    (Logger.log s la ea sv m depth env).ops = s.ops ∧
    (Logger.log s la ea sv m depth env).entries.length = s.entries.length ∧
    (∀ i, i ≠ ea → (Logger.log s la ea sv m depth env).getEntry i = s.getEntry i) ∧
    (Logger.log s la ea sv m depth env).loggers.length = s.loggers.length := by
  obtain ⟨hlog, hent, hstr, hfld, hops, herr⟩ := logPre_frame s la depth env
  rw [log_eq]
  cases henc : encodeEntry s (logEntry s la ea sv m depth env) with
  | error msg =>
    refine ⟨by simp [State.setEntry, hstr], by simp [State.setEntry, hfld],
        by simp [State.setEntry, hops], by simp [State.setEntry, hent], ?_,
        by simp [State.setEntry, hlog]⟩
    intro i hi
    show ((logPre s la depth env).setEntry ea
        (logEntry s la ea sv m depth env)).getEntry i = s.getEntry i
    rw [getEntry_set_ne _ _ _ _ (fun h => hi h.symm)]
    exact getEntry_congr hent i
  | ok r =>
    refine ⟨by simp [State.setLogger, State.setEntry, hstr],
        by simp [State.setLogger, State.setEntry, hfld],
        by simp [State.setLogger, State.setEntry, hops],
        by simp [State.setLogger, State.setEntry, hent], ?_,
        by simp [State.setLogger, State.setEntry, hlog]⟩
    intro i hi
    show (((logPre s la depth env).setEntry ea
        (logEntry s la ea sv m depth env)).setLogger la _).getEntry i = s.getEntry i
    have h1 : (((logPre s la depth env).setEntry ea
        (logEntry s la ea sv m depth env)).setLogger la
          { s.getLogger la with
            out := (s.getLogger la).out ++ [r] }).getEntry i =
        ((logPre s la depth env).setEntry ea
          (logEntry s la ea sv m depth env)).getEntry i := rfl
    rw [h1, getEntry_set_ne _ _ _ _ (fun h => hi h.symm)]
    exact getEntry_congr hent i

/-- log mutates the entry it was handed in place. -/
theorem log_getEntry (s : State) (la ea : Nat) (sv m : String) (depth : Nat)
    (env : RuntimeEnv) (hea : ea < s.entries.length) :
    (Logger.log s la ea sv m depth env).getEntry ea =
      logEntry s la ea sv m depth env := by
  obtain ⟨hlog, hent, hstr, hfld, hops, herr⟩ := logPre_frame s la depth env
  have hea1 : ea < (logPre s la depth env).entries.length := by
    rw [hent]
    exact hea
  rw [log_eq]
  cases henc : encodeEntry s (logEntry s la ea sv m depth env) with
  | error msg =>
    show ((logPre s la depth env).setEntry ea
        (logEntry s la ea sv m depth env)).getEntry ea = _
    exact getEntry_set_self _ _ _ hea1
  | ok r =>
    show (((logPre s la depth env).setEntry ea
        (logEntry s la ea sv m depth env)).setLogger la _).getEntry ea = _
    exact getEntry_set_self _ _ _ hea1

/-- When the entry marshals, log appends exactly one record to the
logger's sink and leaves stderr alone. -/
theorem log_out_ok (s : State) (la ea : Nat) (sv m : String) (depth : Nat)
    (env : RuntimeEnv) (hla : la < s.loggers.length)
    (hm : marshalsB s (logEntry s la ea sv m depth env) = true) :
    (Logger.log s la ea sv m depth env).getLogger la =
      { s.getLogger la with
        out := (s.getLogger la).out ++
          [encodeRec s (logEntry s la ea sv m depth env)] } ∧
    (∀ lb, lb ≠ la →
      (Logger.log s la ea sv m depth env).getLogger lb = s.getLogger lb) ∧
    (Logger.log s la ea sv m depth env).stderrLines = s.stderrLines := by
  obtain ⟨hlog, hent, hstr, hfld, hops, herr⟩ := logPre_frame s la depth env
  rw [log_eq, encodeEntry_ok hm]
  have hla1 : la < ((logPre s la depth env).setEntry ea
      (logEntry s la ea sv m depth env)).loggers.length := by
    show la < (logPre s la depth env).loggers.length
    rw [hlog]
    exact hla
  refine ⟨getLogger_set_self _ _ _ hla1, ?_, ?_⟩
  · intro lb hlb
    rw [getLogger_set_ne _ _ _ _ (fun h => hlb h.symm)]
    show (logPre s la depth env).getLogger lb = s.getLogger lb
    simp [State.getLogger, hlog]
  · show ((logPre s la depth env).setEntry ea
      (logEntry s la ea sv m depth env)).stderrLines = s.stderrLines
    simpa [State.setEntry] using herr

/-- When the entry does not marshal, log writes one diagnostic line to
stderr instead, and no logger's sink receives anything. -/
theorem log_out_err (s : State) (la ea : Nat) (sv m : String) (depth : Nat)
    (env : RuntimeEnv)
    (hm : marshalsB s (logEntry s la ea sv m depth env) = false) :
    (∀ lb, (Logger.log s la ea sv m depth env).getLogger lb = s.getLogger lb) ∧
    (Logger.log s la ea sv m depth env).stderrLines =
      s.stderrLines ++ ["could not marshal log: json: unsupported type"] := by
  obtain ⟨hlog, hent, hstr, hfld, hops, herr⟩ := logPre_frame s la depth env
  rw [log_eq, encodeEntry_err hm]
  constructor
  · intro lb
    show State.getLogger _ lb = s.getLogger lb
    simp [State.getLogger, State.setEntry, hlog]
  · rfl

/-- A concrete runtime environment with an empty caller stack. -/
def emptyEnv : RuntimeEnv :=
  { frames := [], frameOf := fun _ => { function := "", file := "", line := 0 } }

/-- A concrete runtime environment with a four-frame caller stack. -/
def deepEnv : RuntimeEnv :=
  { frames :=
      [{ pc := 10, file := "a.go", line := 1, fn := some "fa" },
       { pc := 11, file := "b.go", line := 2, fn := some "fb" },
       { pc := 12, file := "c.go", line := 3, fn := some "fc" },
       { pc := 13, file := "d.go", line := 4, fn := some "fd" }],
    frameOf := fun pc => { function := "fn", file := "f.go", line := pc } }

/-- A concrete state whose base entry holds a detail value that
encoding/json cannot marshal. -/
def badState : State :=
  { loggers := [{ sources := false, project := "", out := [] }],
    entries := [{ zeroEntry 0 with details := some 0 }],
    strMaps := [], fldMaps := [[("k", Value.bad)]], ops := [],
    sources := [], stderrLines := [] }

/-- A concrete state whose logger has a project configured. -/
def projState : State :=
  { loggers := [{ sources := true, project := "proj", out := [] }],
    entries := [zeroEntry std],
    strMaps := [], fldMaps := [], ops := [], sources := [], stderrLines := [] }

/-- A concrete state whose base entry carries an operation in progress. -/
def opState : State :=
  { loggers := [{ sources := true, project := "", out := [] }],
    entries := [{ zeroEntry std with operation := some 0 }],
    strMaps := [], fldMaps := [],
    ops := [{ id := "op1", producer := "svc", first := false, last := false }],
    sources := [], stderrLines := [] }

/-- C1: for every entry e whose heap references are in bounds, each of the
chaining operations WithLabels, WithDetail, WithDetails and WithError
returns a new child entry with independently owned labels and details
maps; the call leaves e's fields and serialized output unchanged, and any
subsequent insertion or update to the child's maps, including through
further With calls on the child, still leaves them unchanged. -/
theorem c1_chaining_ops_leave_parent_unchanged (s : State) (e : Nat)
    (hb : entryBounds s e = true) :
    (∀ lbls, ParentUntouched s e (Entry.WithLabels s e lbls)) ∧
    (∀ k v, ParentUntouched s e (Entry.WithDetail s e k v)) ∧
    (∀ dtls, ParentUntouched s e (Entry.WithDetails s e dtls)) ∧
    (∀ err, ParentUntouched s e (Entry.WithError s e err)) :=
  ⟨fun lbls => parentUntouched_of_cloneOp hb (cloneOp_withLabels s e lbls),
   fun k v => parentUntouched_of_cloneOp hb (cloneOp_withDetail s e k v),
   fun dtls => parentUntouched_of_cloneOp hb (cloneOp_withDetails s e dtls),
   fun err => parentUntouched_of_cloneOp hb (cloneOp_withError s e err)⟩

theorem c1_chaining_ops_witness :
    entryBounds initState 0 = true ∧
    ParentUntouched initState 0
      (Entry.WithLabels initState 0 [("k", Value.str "v")]) :=
  ⟨by decide,
   (c1_chaining_ops_leave_parent_unchanged initState 0 (by decide)).1
     [("k", Value.str "v")]⟩

/-- C8: FromContext of NewContext returns exactly the attached entry and
leaves the state unchanged; on a context carrying no attached entry,
FromContext allocates and returns a fresh zero entry bound to the package
default logger rather than nil. -/
theorem c8_context_roundtrip_and_default :
    (∀ (s : State) (ctx : Context) (ea : Nat),
      FromContext s (NewContext ctx ea) = (s, ea)) ∧
    (∀ (s : State) (ctx : Context),
      (∀ a, ctxValue ctx CtxKey.entryKey ≠ some (CtxVal.entryVal a)) →
      FromContext s ctx =
        ({ s with entries := s.entries ++ [zeroEntry std] }, s.entries.length) ∧
      (FromContext s ctx).1.getEntry (FromContext s ctx).2 = zeroEntry std) := by
  constructor
  · intro s ctx ea
    rfl
  · intro s ctx h
    rcases hx : ctxValue ctx CtxKey.entryKey with _ | v
    · refine ⟨by simp [FromContext, hx, Logger.newEntry, State.allocEntry], ?_⟩
      simp only [FromContext, hx, Logger.newEntry]
      exact getEntry_alloc_self s _
    · cases v with
      | entryVal a => exact absurd hx (h a)
      | otherVal n =>
        refine ⟨by simp [FromContext, hx, Logger.newEntry, State.allocEntry], ?_⟩
        simp only [FromContext, hx, Logger.newEntry]
        exact getEntry_alloc_self s _

theorem c8_context_witness :
    FromContext initState (NewContext [] 0) = (initState, 0) ∧
    FromContext initState [] =
      ({ initState with entries := initState.entries ++ [zeroEntry std] },
        initState.entries.length) :=
  ⟨(c8_context_roundtrip_and_default).1 initState [] 0,
   ((c8_context_roundtrip_and_default).2 initState []
     (fun a hx => by simp [ctxValue] at hx)).1⟩

/-- C6: when the entry handed to log cannot be encoded, the emission
writes one diagnostic line to the stderr stream, appends nothing to any
logger's sink, and returns normally; log is a total function, so the
failure neither propagates nor panics. -/
theorem c6_marshal_failure_diverts_to_stderr (s : State) (la ea : Nat)
    (sv m : String) (depth : Nat) (env : RuntimeEnv)
    (hm : marshalsB s (s.getEntry ea) = false) :
    (∀ lb, (Logger.log s la ea sv m depth env).getLogger lb = s.getLogger lb) ∧
    (Logger.log s la ea sv m depth env).stderrLines =
      s.stderrLines ++ ["could not marshal log: json: unsupported type"] :=
  log_out_err s la ea sv m depth env hm

theorem c6_marshal_failure_witness :
    marshalsB badState (badState.getEntry 0) = false ∧
    (Logger.log badState 0 0 severityInfo "hello" 2 emptyEnv).getLogger 0 =
      badState.getLogger 0 ∧
    (Logger.log badState 0 0 severityInfo "hello" 2 emptyEnv).stderrLines =
      badState.stderrLines ++ ["could not marshal log: json: unsupported type"] :=
  ⟨by decide,
   (c6_marshal_failure_diverts_to_stderr badState 0 0 severityInfo "hello" 2
     emptyEnv (by decide)).1 0,
   (c6_marshal_failure_diverts_to_stderr badState 0 0 severityInfo "hello" 2
     emptyEnv (by decide)).2⟩

theorem marshalsB_logEntry (s : State) (la ea : Nat) (sv m : String)
    (depth : Nat) (env : RuntimeEnv) :
    marshalsB s (logEntry s la ea sv m depth env) =
      marshalsB s (s.getEntry ea) := rfl

theorem marshalsB_congr {s s' : State} (hfld : s'.fldMaps = s.fldMaps)
    {x y : Entry} (hdtl : x.details = y.details) :
    marshalsB s' x = marshalsB s y := by
  unfold marshalsB
  rw [hdtl]
  simp only [State.getFldMap, hfld]

/-- C2: startOperation sets the receiver's operation to the given id and
producer with first true, emits exactly one NOTICE record announcing the
start that carries first equal true and the id and producer, then clears
first on that same operation object and returns the same entry address;
consequently a second emission from the returned entry still carries id
and producer but no first flag. -/
theorem c2_start_operation (s : State) (ea : Nat) (id producer : String)
    (env : RuntimeEnv) (hea : ea < s.entries.length)
    (hla : (s.getEntry ea).logger < s.loggers.length)
    (hm : marshalsB s (s.getEntry ea) = true)
    (hid : id ≠ "") (hprod : producer ≠ "") :
    (Entry.startOperation s ea id producer env).2 = ea ∧
    (∃ r : Rec,
      ((Entry.startOperation s ea id producer env).1.getLogger
          (s.getEntry ea).logger).out =
        (s.getLogger (s.getEntry ea).logger).out ++ [r] ∧
      r.severity = some severityNotice ∧
      r.message = producer ++ " starting operation " ++ id ∧
      r.operation = some { id := some id, producer := some producer,
                           first := some true, last := none }) ∧
    (∃ oa : Nat,
      ((Entry.startOperation s ea id producer env).1.getEntry ea).operation =
        some oa ∧
      (Entry.startOperation s ea id producer env).1.getOp oa =
        { id := id, producer := producer, first := false, last := false }) ∧
    (∀ (m2 : String) (env2 : RuntimeEnv), ∃ r2 : Rec,
      ((Entry.Info (Entry.startOperation s ea id producer env).1 ea m2
          env2).getLogger (s.getEntry ea).logger).out =
        ((Entry.startOperation s ea id producer env).1.getLogger
          (s.getEntry ea).logger).out ++ [r2] ∧
      r2.severity = some severityInfo ∧
      r2.operation = some { id := some id, producer := some producer,
                            first := none, last := none }) := by
  simp only [Entry.startOperation]
  set o0 : Operation :=
    { id := id, producer := producer, first := true, last := false } with ho0
  set oa0 := (s.allocOp o0).2 with hoa0
  set sA := (s.allocOp o0).1 with hsA
  set s1 := sA.setEntry ea { sA.getEntry ea with operation := some oa0 } with hs1
  set la1 := (s1.getEntry ea).logger with hla1d
  set msg := producer ++ " starting operation " ++ id with hmsg
  set s2 := Logger.log s1 la1 ea severityNotice msg 3 env with hs2
  have heaA : ea < sA.entries.length := hea
  have hent1 : s1.getEntry ea =
      { s.getEntry ea with operation := some oa0 } := by
    rw [hs1]
    exact getEntry_set_self sA _ ea heaA
  have hlg : la1 = (s.getEntry ea).logger := by
    rw [hla1d, hent1]
  have hea1 : ea < s1.entries.length := by
    rw [hs1]
    simp only [State.setEntry, List.length_set]
    exact hea
  have hla1 : la1 < s1.loggers.length := by
    rw [hlg]
    exact hla
  have hm1 : marshalsB s1 (logEntry s1 la1 ea severityNotice msg 3 env) = true := by
    rw [marshalsB_logEntry]
    rw [marshalsB_congr (rfl : s1.fldMaps = s.fldMaps)
      (by rw [hent1] : (s1.getEntry ea).details = (s.getEntry ea).details)]
    exact hm
  have hout := log_out_ok s1 la1 ea severityNotice msg 3 env hla1 hm1
  have hent2 : s2.getEntry ea = logEntry s1 la1 ea severityNotice msg 3 env := by
    rw [hs2]
    exact log_getEntry s1 la1 ea severityNotice msg 3 env hea1
  have hop2 : (s2.getEntry ea).operation = some oa0 := by
    rw [hent2]
    show (s1.getEntry ea).operation = some oa0
    rw [hent1]
  rw [hop2]
  simp only []
  set s3 := s2.setOp oa0 { s2.getOp oa0 with first := false } with hs3
  have hops2 : s2.ops = s.ops ++ [o0] := by
    rw [hs2]
    exact (log_frame s1 la1 ea severityNotice msg 3 env).2.2.1
  have hoaval : s2.getOp oa0 = o0 := by
    show s2.ops.getD oa0 default = o0
    rw [hops2]
    exact getD_append_self s.ops default o0
  have hoalt : oa0 < s2.ops.length := by
    rw [hops2]
    show s.ops.length < (s.ops ++ [o0]).length
    rw [List.length_append]
    show s.ops.length < s.ops.length + 1
    omega
  have hop3val : s3.getOp oa0 = { o0 with first := false } := by
    rw [hs3, hoaval]
    exact getOp_set_self s2 _ oa0 hoalt
  have hent3 : s3.getEntry ea = s2.getEntry ea := rfl
  have hlog3 : ∀ lb, s3.getLogger lb = s2.getLogger lb := fun lb => rfl
  refine ⟨trivial, ?_, ?_, ?_⟩
  · refine ⟨encodeRec s1 (logEntry s1 la1 ea severityNotice msg 3 env), ?_, ?_, ?_, ?_⟩
    · rw [hlog3, ← hlg, hout.1]
      have : s1.getLogger la1 = s.getLogger la1 := rfl
      rw [this]
    · show (if severityNotice = "" then none else some severityNotice) =
        some severityNotice
      rw [if_neg (by decide)]
    · rfl
    · show (((s1.getEntry ea).operation).map
          (fun a => encodeOp (s1.getOp a))) = _
      rw [hent1]
      show some (encodeOp (s1.getOp oa0)) = _
      have hgoa : s1.getOp oa0 = o0 := by
        show (s.ops ++ [o0]).getD oa0 default = o0
        exact getD_append_self s.ops default o0
      rw [hgoa, ho0]
      simp [encodeOp, hid, hprod]
  · refine ⟨oa0, ?_, ?_⟩
    · rw [hent3, hop2]
    · rw [hop3val, ho0]
  · intro m2 env2
    have hea3 : ea < s3.entries.length := by
      show ea < s2.entries.length
      rw [hs2, (log_frame s1 la1 ea severityNotice msg 3 env).2.2.2.1]
      exact hea1
    have hlg3 : (s3.getEntry ea).logger = la1 := by
      rw [hent3, hent2]
      rfl
    have hla3 : (s3.getEntry ea).logger < s3.loggers.length := by
      rw [hlg3]
      show la1 < s2.loggers.length
      rw [hs2, (log_frame s1 la1 ea severityNotice msg 3 env).2.2.2.2.2]
      exact hla1
    have hm3 : marshalsB s3
        (logEntry s3 (s3.getEntry ea).logger ea severityInfo m2 2 env2) = true := by
      rw [marshalsB_logEntry]
      have hfld3 : s3.fldMaps = s.fldMaps := by
        show s2.fldMaps = s.fldMaps
        rw [hs2, (log_frame s1 la1 ea severityNotice msg 3 env).2.1]
        rfl
      have hdtl3 : (s3.getEntry ea).details = (s.getEntry ea).details := by
        rw [hent3, hent2]
        show (s1.getEntry ea).details = (s.getEntry ea).details
        rw [hent1]
      rw [marshalsB_congr hfld3 hdtl3]
      exact hm
    have hout3 := log_out_ok s3 (s3.getEntry ea).logger ea severityInfo m2 2
      env2 hla3 hm3
    refine ⟨encodeRec s3
        (logEntry s3 (s3.getEntry ea).logger ea severityInfo m2 2 env2), ?_, ?_, ?_⟩
    · show ((Logger.log s3 (s3.getEntry ea).logger ea severityInfo m2 2
          env2).getLogger (s.getEntry ea).logger).out = _
      rw [← hlg, ← hlg3, hout3.1]
    · show (if severityInfo = "" then none else some severityInfo) =
        some severityInfo
      rw [if_neg (by decide)]
    · show (((s3.getEntry ea).operation).map
          (fun a => encodeOp (s3.getOp a))) = _
      rw [hent3, hop2]
      show some (encodeOp (s3.getOp oa0)) = _
      rw [hop3val, ho0]
      simp [encodeOp, hid, hprod]

theorem c2_start_operation_witness :
    (0 < initState.entries.length ∧
     (initState.getEntry 0).logger < initState.loggers.length ∧
     marshalsB initState (initState.getEntry 0) = true ∧
     ("op1" : String) ≠ "" ∧ ("svc" : String) ≠ "") ∧
    (Entry.startOperation initState 0 "op1" "svc" emptyEnv).2 = 0 :=
  ⟨⟨by decide, by decide, by decide, by decide, by decide⟩,
   (c2_start_operation initState 0 "op1" "svc" emptyEnv (by decide) (by decide)
     (by decide) (by decide) (by decide)).1⟩

/-- C3: EndOperation on an entry with no operation set returns the state
unchanged and emits nothing; on an entry with an operation set it emits
exactly one NOTICE record whose operation carries last equal true, then
clears the entry's operation, so a subsequent emission from that entry
carries no operation field. -/
theorem c3_end_operation (s : State) (ea : Nat) (env : RuntimeEnv) :
    ((s.getEntry ea).operation = none → Entry.EndOperation s ea env = s) ∧
    (∀ oa, (s.getEntry ea).operation = some oa →
      oa < s.ops.length →
      ea < s.entries.length →
      (s.getEntry ea).logger < s.loggers.length →
      marshalsB s (s.getEntry ea) = true →
      (∃ r : Rec,
        ((Entry.EndOperation s ea env).getLogger (s.getEntry ea).logger).out =
          (s.getLogger (s.getEntry ea).logger).out ++ [r] ∧
        r.severity = some severityNotice ∧
        r.message =
          (s.getOp oa).producer ++ " ending operation " ++ (s.getOp oa).id ∧
        (∃ o : OpRec, r.operation = some o ∧ o.last = some true)) ∧
      ((Entry.EndOperation s ea env).getEntry ea).operation = none ∧
      (∀ (m2 : String) (env2 : RuntimeEnv), ∃ r2 : Rec,
        ((Entry.Info (Entry.EndOperation s ea env) ea m2 env2).getLogger
            (s.getEntry ea).logger).out =
          ((Entry.EndOperation s ea env).getLogger
            (s.getEntry ea).logger).out ++ [r2] ∧
        r2.severity = some severityInfo ∧
        r2.operation = none)) := by
  constructor
  · intro hnone
    unfold Entry.EndOperation
    rw [hnone]
  · intro oa hop hoab hea hla hm
    unfold Entry.EndOperation
    rw [hop]
    simp only []
    set s1 := s.setOp oa
      { s.getOp oa with last := true } with hs1
    set o1 := s1.getOp oa with ho1
    set la1 := (s1.getEntry ea).logger with hla1d
    set msg := o1.producer ++ " ending operation " ++ o1.id with hmsgd
    set s2 := Logger.log s1 la1 ea severityNotice msg 2 env with hs2
    have hent1 : s1.getEntry ea = s.getEntry ea := rfl
    have hlg : la1 = (s.getEntry ea).logger := rfl
    have hea1 : ea < s1.entries.length := hea
    have hla1 : la1 < s1.loggers.length := hla
    have ho1v : o1 = { s.getOp oa with last := true } := by
      rw [ho1, hs1]
      exact getOp_set_self s _ oa hoab
    have hm1 : marshalsB s1 (logEntry s1 la1 ea severityNotice msg 2 env) =
        true := hm
    have hout := log_out_ok s1 la1 ea severityNotice msg 2 env hla1 hm1
    have hent2 : s2.getEntry ea = logEntry s1 la1 ea severityNotice msg 2 env := by
      rw [hs2]
      exact log_getEntry s1 la1 ea severityNotice msg 2 env hea1
    have hea2 : ea < s2.entries.length := by
      rw [hs2, (log_frame s1 la1 ea severityNotice msg 2 env).2.2.2.1]
      exact hea1
    set s3 := s2.setEntry ea { s2.getEntry ea with operation := none } with hs3
    have hent3 : s3.getEntry ea = { s2.getEntry ea with operation := none } := by
      rw [hs3]
      exact getEntry_set_self s2 _ ea hea2
    have hop3 : (s3.getEntry ea).operation = none := by
      rw [hent3]
    have hlog3 : ∀ lb, s3.getLogger lb = s2.getLogger lb := fun lb => rfl
    refine ⟨?_, hop3, ?_⟩
    · refine ⟨encodeRec s1 (logEntry s1 la1 ea severityNotice msg 2 env),
        ?_, ?_, ?_, ?_⟩
      · rw [hlog3, ← hlg, hout.1]
        have h1 : s1.getLogger la1 = s.getLogger la1 := rfl
        rw [h1]
      · show (if severityNotice = "" then none else some severityNotice) =
          some severityNotice
        rw [if_neg (by decide)]
      · show msg = _
        rw [hmsgd, ho1v]
      · refine ⟨encodeOp o1, ?_, ?_⟩
        · show (((s1.getEntry ea).operation).map
              (fun a => encodeOp (s1.getOp a))) = some (encodeOp o1)
          rw [hent1, hop]
          rfl
        · rw [ho1v]
          show (if true then some true else none) = some true
          rfl
    · intro m2 env2
      have hea3 : ea < s3.entries.length := by
        rw [hs3]
        show ea < (s2.entries.set ea _).length
        rw [List.length_set]
        exact hea2
      have hlg3 : (s3.getEntry ea).logger = la1 := by
        rw [hent3, hent2]
        rfl
      have hla3 : (s3.getEntry ea).logger < s3.loggers.length := by
        rw [hlg3]
        show la1 < s2.loggers.length
        rw [hs2, (log_frame s1 la1 ea severityNotice msg 2 env).2.2.2.2.2]
        exact hla1
      have hm3 : marshalsB s3
          (logEntry s3 (s3.getEntry ea).logger ea severityInfo m2 2 env2) =
          true := by
        rw [marshalsB_logEntry]
        have hfld3 : s3.fldMaps = s.fldMaps := by
          show s2.fldMaps = s1.fldMaps
          rw [hs2]
          exact (log_frame s1 la1 ea severityNotice msg 2 env).2.1
        have hdtl3 : (s3.getEntry ea).details = (s.getEntry ea).details := by
          rw [hent3]
          show (s2.getEntry ea).details = (s.getEntry ea).details
          rw [hent2]
          rfl
        rw [marshalsB_congr hfld3 hdtl3]
        exact hm
      have hout3 := log_out_ok s3 (s3.getEntry ea).logger ea severityInfo m2 2
        env2 hla3 hm3
      refine ⟨encodeRec s3
          (logEntry s3 (s3.getEntry ea).logger ea severityInfo m2 2 env2),
        ?_, ?_, ?_⟩
      · show ((Logger.log s3 (s3.getEntry ea).logger ea severityInfo m2 2
            env2).getLogger (s.getEntry ea).logger).out = _
        rw [← hlg, ← hlg3, hout3.1]
      · show (if severityInfo = "" then none else some severityInfo) =
          some severityInfo
        rw [if_neg (by decide)]
      · show (((s3.getEntry ea).operation).map
            (fun a => encodeOp (s3.getOp a))) = none
        rw [hop3]
        rfl

theorem formatStackTrace_ne (env : RuntimeEnv) (errstr : String)
    (st : List Nat) : formatStackTrace env errstr st ≠ "" := by
  unfold formatStackTrace
  intro h
  have hlen := congrArg String.length h
  simp only [String.length_append] at hlen
  have h3 : (":\n\n" : String).length = 3 := rfl
  rw [h3] at hlen
  simp at hlen

/-- The transition from s to s' emitted one record on logger la whose
exception field carries a rendered stack trace. -/
def EmitsWithStack (s : State) (la : Nat) (s' : State) : Prop :=
  ∃ r : Rec, (s'.getLogger la).out = (s.getLogger la).out ++ [r] ∧
    r.exception ≠ none

/-- The transition from s to s' emitted one record on logger la with no
exception field. -/
def EmitsNoStack (s : State) (la : Nat) (s' : State) : Prop :=
  ∃ r : Rec, (s'.getLogger la).out = (s.getLogger la).out ++ [r] ∧
    r.exception = none

/-- Emission through a stack-capturing clone always renders a stack trace
into the record, provided the runtime has frames to capture. -/
theorem errorEmit_spec (s : State) (ra la : Nat) (sv m : String)
    (env : RuntimeEnv) (hla : la < s.loggers.length)
    (hm : marshalsB s (s.getEntry ra) = true)
    (hpcs : runtimeCallers env 3 16 ≠ []) :
    EmitsWithStack s la
      (Logger.log (Entry.withStack s ra 3 env).1 la
        (Entry.withStack s ra 3 env).2 sv m 2 env) := by
  have cs := clone_spec s ra
  have hcb : (clone s ra).2 < (clone s ra).1.entries.length := by
    rw [cs.centry, cs.entLen]
    omega
  have hl' : (Entry.withStack s ra 3 env).1.loggers = s.loggers := by
    show (clone s ra).1.loggers = s.loggers
    exact cs.loggersEq
  have hglog : (Entry.withStack s ra 3 env).1.getLogger la = s.getLogger la := by
    simp [State.getLogger, hl']
  have hla' : la < (Entry.withStack s ra 3 env).1.loggers.length := by
    rw [hl']
    exact hla
  have hent : (Entry.withStack s ra 3 env).1.getEntry
      (Entry.withStack s ra 3 env).2 =
      { (clone s ra).1.getEntry (clone s ra).2 with
          stack := runtimeCallers env 3 16 } := by
    show ((clone s ra).1.setEntry (clone s ra).2 _).getEntry (clone s ra).2 = _
    exact getEntry_set_self _ _ _ hcb
  have hdtl : ((Entry.withStack s ra 3 env).1.getEntry
      (Entry.withStack s ra 3 env).2).details =
      ((s.getEntry ra).details).map (fun _ => s.fldMaps.length) := by
    rw [hent]
    show ((clone s ra).1.getEntry (clone s ra).2).details = _
    rw [cs.child]
  have hm' : marshalsB (Entry.withStack s ra 3 env).1
      ((Entry.withStack s ra 3 env).1.getEntry
        (Entry.withStack s ra 3 env).2) = true := by
    unfold marshalsB
    rw [hdtl]
    unfold marshalsB at hm
    rcases hd : (s.getEntry ra).details with _ | a
    · rfl
    · rw [hd] at hm
      have hmap : (Entry.withStack s ra 3 env).1.getFldMap s.fldMaps.length =
          s.getFldMap a := by
        show (clone s ra).1.getFldMap s.fldMaps.length = s.getFldMap a
        exact cs.childFld a hd
      have hm2 : (s.getFldMap a).all (fun kv => kv.2.encodable) = true := hm
      show ((Entry.withStack s ra 3 env).1.getFldMap s.fldMaps.length).all
        (fun kv => kv.2.encodable) = true
      rw [hmap]
      exact hm2
  have hout := log_out_ok (Entry.withStack s ra 3 env).1 la
    (Entry.withStack s ra 3 env).2 sv m 2 env hla' hm'
  refine ⟨encodeRec (Entry.withStack s ra 3 env).1
      (logEntry (Entry.withStack s ra 3 env).1 la
        (Entry.withStack s ra 3 env).2 sv m 2 env), ?_, ?_⟩
  · rw [hout.1, hglog]
  · show (if logStackTrace ((Entry.withStack s ra 3 env).1.getEntry
        (Entry.withStack s ra 3 env).2) m env = "" then none
      else some _) ≠ none
    have hstk : ((Entry.withStack s ra 3 env).1.getEntry
        (Entry.withStack s ra 3 env).2).stack = runtimeCallers env 3 16 := by
      rw [hent]
    have hne : logStackTrace ((Entry.withStack s ra 3 env).1.getEntry
        (Entry.withStack s ra 3 env).2) m env ≠ "" := by
      unfold logStackTrace
      rw [hstk]
      rw [if_pos (by
        have := List.length_pos.mpr hpcs
        omega)]
      exact formatStackTrace_ne env _ _
    rw [if_neg hne]
    exact Option.some_ne_none _

/-- Emission from an entry that carries no captured stack renders no
exception field into the record. -/
theorem plainEmit_noStack (s : State) (ra la : Nat) (sv m : String)
    (depth : Nat) (env : RuntimeEnv) (hla : la < s.loggers.length)
    (hm : marshalsB s (s.getEntry ra) = true)
    (hstk : (s.getEntry ra).stack = []) :
    EmitsNoStack s la (Logger.log s la ra sv m depth env) := by
  have hout := log_out_ok s la ra sv m depth env hla
    (by rw [marshalsB_logEntry]; exact hm)
  refine ⟨encodeRec s (logEntry s la ra sv m depth env), ?_, ?_⟩
  · rw [hout.1]
  · show (if logStackTrace (s.getEntry ra) m env = "" then none
      else some _) = none
    have hz : logStackTrace (s.getEntry ra) m env = "" := by
      unfold logStackTrace
      rw [hstk]
      rfl
    rw [if_pos hz]

/-- An error-level severity method logs the stack-capturing clone, not the
receiver: the receiver entry object is unchanged by the call. -/
theorem errorMethod_receiver_frame (s : State) (ra la : Nat) (sv m : String)
    (env : RuntimeEnv) (hra : ra < s.entries.length) :
    (Logger.log (Entry.withStack s ra 3 env).1 la (Entry.withStack s ra 3 env).2
        sv m 2 env).getEntry ra = s.getEntry ra := by
  have h := cloneOp_withStack s ra 3 env
  have hne : ra ≠ (Entry.withStack s ra 3 env).2 := by
    rw [h.centry]
    omega
  have hf := (log_frame (Entry.withStack s ra 3 env).1 la
    (Entry.withStack s ra 3 env).2 sv m 2 env).2.2.2.2.1 ra hne
  rw [hf]
  exact h.entFrame ra hra

/-- Refutes the final clause of C5: with no project configured on the
Logger, WithSpan does not leave the trace fields empty — the child's trace
is the non-empty string projects//traces/abc123 and the span id and
sampling flag are still copied from the span context. -/
theorem c5_with_span_counterexample :
    (initState.getLogger (initState.getEntry 0).logger).project = "" ∧
    ((Entry.WithSpan initState 0
        { traceID := "abc123", spanID := "00f067aa0ba902b7",
          sampled := true }).1.getEntry
      (Entry.WithSpan initState 0
        { traceID := "abc123", spanID := "00f067aa0ba902b7",
          sampled := true }).2).trace = "projects//traces/abc123" ∧
    ((Entry.WithSpan initState 0
        { traceID := "abc123", spanID := "00f067aa0ba902b7",
          sampled := true }).1.getEntry
      (Entry.WithSpan initState 0
        { traceID := "abc123", spanID := "00f067aa0ba902b7",
          sampled := true }).2).trace ≠ "" := by decide

/-- C5 (amended): WithSpan returns a fresh child entry whose trace field is
always the concatenation projects/<project>/traces/<traceID> built from the
owning Logger's project, whose spanId and traceSampled fields are copied
from the span context, and the parent's view and serialized output are
unchanged.  When no project is configured the trace is the non-empty string
projects//traces/<traceID>, not an empty field: there is no silent-failure
branch in WithSpan. -/
theorem c5_with_span (s : State) (ea : Nat) (sc : SpanContext)
    (hb : entryBounds s ea = true) :
    (Entry.WithSpan s ea sc).2 = s.entries.length ∧
    ((Entry.WithSpan s ea sc).1.getEntry (Entry.WithSpan s ea sc).2).trace =
      "projects/" ++ (s.getLogger (s.getEntry ea).logger).project ++
        "/traces/" ++ sc.traceID ∧
    ((Entry.WithSpan s ea sc).1.getEntry (Entry.WithSpan s ea sc).2).spanId =
      sc.spanID ∧
    ((Entry.WithSpan s ea sc).1.getEntry
      (Entry.WithSpan s ea sc).2).traceSampled = sc.sampled ∧
    entryView (Entry.WithSpan s ea sc).1 ea = entryView s ea ∧
    encodeEntryAt (Entry.WithSpan s ea sc).1 ea = encodeEntryAt s ea := by
  have cs := clone_spec s ea
  have hcb : (clone s ea).2 < (clone s ea).1.entries.length := by
    rw [cs.centry, cs.entLen]; omega
  have hsi := sep_init hb (cloneOp_withSpan s ea sc)
  have henc := encode_eq_of_view_eq s (Entry.WithSpan s ea sc).1 ea hsi.2
  have hget : (Entry.WithSpan s ea sc).1.getEntry (Entry.WithSpan s ea sc).2 =
      { (clone s ea).1.getEntry (clone s ea).2 with
          trace := "projects/" ++
            (s.getLogger (s.getEntry ea).logger).project ++
            "/traces/" ++ sc.traceID,
          spanId := sc.spanID, traceSampled := sc.sampled } := by
    simp only [Entry.WithSpan]
    exact getEntry_set_self _ _ _ hcb
  refine ⟨cs.centry, ?_, ?_, ?_, hsi.2, henc⟩
  · rw [hget]
  · rw [hget]
  · rw [hget]

theorem c5_with_span_witness :
    entryBounds projState 0 = true ∧
    ((Entry.WithSpan projState 0
        { traceID := "t1", spanID := "s1", sampled := true }).1.getEntry
      (Entry.WithSpan projState 0
        { traceID := "t1", spanID := "s1", sampled := true }).2).trace =
      "projects/" ++
        (projState.getLogger (projState.getEntry 0).logger).project ++
        "/traces/" ++ "t1" :=
  ⟨by decide,
   (c5_with_span projState 0 { traceID := "t1", spanID := "s1", sampled := true }
     (by decide)).2.1⟩

theorem c3_end_operation_witness :
    ((initState.getEntry 0).operation = none ∧
     Entry.EndOperation initState 0 emptyEnv = initState) ∧
    ((opState.getEntry 0).operation = some 0 ∧ 0 < opState.ops.length ∧
     0 < opState.entries.length ∧
     (opState.getEntry 0).logger < opState.loggers.length ∧
     marshalsB opState (opState.getEntry 0) = true) ∧
    ((Entry.EndOperation opState 0 emptyEnv).getEntry 0).operation = none :=
  ⟨⟨by decide, (c3_end_operation initState 0 emptyEnv).1 (by decide)⟩,
   ⟨by decide, by decide, by decide, by decide, by decide⟩,
   ((c3_end_operation opState 0 emptyEnv).2 0 (by decide) (by decide) (by decide)
     (by decide) (by decide)).2.1⟩

/-- C4: every emission through an ERROR, CRITICAL, ALERT or EMERGENCY
severity method, plain or formatted, on an explicit entry, a Logger or the
package default, captures a stack snapshot automatically, so the emitted
record carries a rendered stack trace even though the caller never called
WithStack; every emission at DEBUG, INFO, NOTICE or WARNING from an entry
carrying no captured stack emits a record without a stack trace.  The
formatted variants receive the already formatted message. -/
theorem c4_error_severities_capture_stack (s : State) (ea la : Nat)
    (m : String) (env : RuntimeEnv)
    (hstd : std < s.loggers.length) (hla : la < s.loggers.length)
    (helg : (s.getEntry ea).logger < s.loggers.length)
    (hmE : marshalsB s (s.getEntry ea) = true)
    (hmB : marshalsB s (s.getEntry base) = true)
    (hpcs : runtimeCallers env 3 16 ≠ [])
    (hstkE : (s.getEntry ea).stack = [])
    (hstkB : (s.getEntry base).stack = []) :
    (EmitsWithStack s (s.getEntry ea).logger (Entry.Error s ea m env) ∧
     EmitsWithStack s (s.getEntry ea).logger (Entry.Errorf s ea m env) ∧
     EmitsWithStack s (s.getEntry ea).logger (Entry.Critical s ea m env) ∧
     EmitsWithStack s (s.getEntry ea).logger (Entry.Criticalf s ea m env) ∧
     EmitsWithStack s (s.getEntry ea).logger (Entry.Alert s ea m env) ∧
     EmitsWithStack s (s.getEntry ea).logger (Entry.Alertf s ea m env) ∧
     EmitsWithStack s (s.getEntry ea).logger (Entry.Emergency s ea m env) ∧
     EmitsWithStack s (s.getEntry ea).logger (Entry.Emergencyf s ea m env)) ∧
    (EmitsWithStack s la (Logger.Error s la m env) ∧
     EmitsWithStack s la (Logger.Errorf s la m env) ∧
     EmitsWithStack s la (Logger.Critical s la m env) ∧
     EmitsWithStack s la (Logger.Criticalf s la m env) ∧
     EmitsWithStack s la (Logger.Alert s la m env) ∧
     EmitsWithStack s la (Logger.Alertf s la m env) ∧
     EmitsWithStack s la (Logger.Emergency s la m env) ∧
     EmitsWithStack s la (Logger.Emergencyf s la m env)) ∧
    (EmitsWithStack s std (Error s m env) ∧
     EmitsWithStack s std (Errorf s m env) ∧
     EmitsWithStack s std (Critical s m env) ∧
     EmitsWithStack s std (Criticalf s m env) ∧
     EmitsWithStack s std (Alert s m env) ∧
     EmitsWithStack s std (Alertf s m env) ∧
     EmitsWithStack s std (Emergency s m env) ∧
     EmitsWithStack s std (Emergencyf s m env)) ∧
    (EmitsNoStack s (s.getEntry ea).logger (Entry.Debug s ea m env) ∧
     EmitsNoStack s (s.getEntry ea).logger (Entry.Debugf s ea m env) ∧
     EmitsNoStack s (s.getEntry ea).logger (Entry.Info s ea m env) ∧
     EmitsNoStack s (s.getEntry ea).logger (Entry.Infof s ea m env) ∧
     EmitsNoStack s (s.getEntry ea).logger (Entry.Notice s ea m env) ∧
     EmitsNoStack s (s.getEntry ea).logger (Entry.Noticef s ea m env) ∧
     EmitsNoStack s (s.getEntry ea).logger (Entry.Warn s ea m env) ∧
     EmitsNoStack s (s.getEntry ea).logger (Entry.Warnf s ea m env)) ∧
    (EmitsNoStack s la (Logger.Debug s la m env) ∧
     EmitsNoStack s la (Logger.Debugf s la m env) ∧
     EmitsNoStack s la (Logger.Info s la m env) ∧
     EmitsNoStack s la (Logger.Infof s la m env) ∧
     EmitsNoStack s la (Logger.Notice s la m env) ∧
     EmitsNoStack s la (Logger.Noticef s la m env) ∧
     EmitsNoStack s la (Logger.Warn s la m env) ∧
     EmitsNoStack s la (Logger.Warnf s la m env)) ∧
    (EmitsNoStack s std (Debug s m env) ∧
     EmitsNoStack s std (Debugf s m env) ∧
     EmitsNoStack s std (Info s m env) ∧
     EmitsNoStack s std (Infof s m env) ∧
     EmitsNoStack s std (Notice s m env) ∧
     EmitsNoStack s std (Noticef s m env) ∧
     EmitsNoStack s std (Warn s m env) ∧
     EmitsNoStack s std (Warnf s m env)) :=
  ⟨⟨errorEmit_spec s ea ((s.getEntry ea).logger) severityError m env helg hmE hpcs,
    errorEmit_spec s ea ((s.getEntry ea).logger) severityError m env helg hmE hpcs,
    errorEmit_spec s ea ((s.getEntry ea).logger) severityCritical m env helg hmE hpcs,
    errorEmit_spec s ea ((s.getEntry ea).logger) severityCritical m env helg hmE hpcs,
    errorEmit_spec s ea ((s.getEntry ea).logger) severityAlert m env helg hmE hpcs,
    errorEmit_spec s ea ((s.getEntry ea).logger) severityAlert m env helg hmE hpcs,
    errorEmit_spec s ea ((s.getEntry ea).logger) severityEmergency m env helg hmE hpcs,
    errorEmit_spec s ea ((s.getEntry ea).logger) severityEmergency m env helg hmE hpcs⟩,
   ⟨errorEmit_spec s base la severityError m env hla hmB hpcs,
    errorEmit_spec s base la severityError m env hla hmB hpcs,
    errorEmit_spec s base la severityCritical m env hla hmB hpcs,
    errorEmit_spec s base la severityCritical m env hla hmB hpcs,
    errorEmit_spec s base la severityAlert m env hla hmB hpcs,
    errorEmit_spec s base la severityAlert m env hla hmB hpcs,
    errorEmit_spec s base la severityEmergency m env hla hmB hpcs,
    errorEmit_spec s base la severityEmergency m env hla hmB hpcs⟩,
   ⟨errorEmit_spec s base std severityError m env hstd hmB hpcs,
    errorEmit_spec s base std severityError m env hstd hmB hpcs,
    errorEmit_spec s base std severityCritical m env hstd hmB hpcs,
    errorEmit_spec s base std severityCritical m env hstd hmB hpcs,
    errorEmit_spec s base std severityAlert m env hstd hmB hpcs,
    errorEmit_spec s base std severityAlert m env hstd hmB hpcs,
    errorEmit_spec s base std severityEmergency m env hstd hmB hpcs,
    errorEmit_spec s base std severityEmergency m env hstd hmB hpcs⟩,
   ⟨plainEmit_noStack s ea ((s.getEntry ea).logger) severityDebug m 2 env helg hmE hstkE,
    plainEmit_noStack s ea ((s.getEntry ea).logger) severityDebug m 2 env helg hmE hstkE,
    plainEmit_noStack s ea ((s.getEntry ea).logger) severityInfo m 2 env helg hmE hstkE,
    plainEmit_noStack s ea ((s.getEntry ea).logger) severityInfo m 2 env helg hmE hstkE,
    plainEmit_noStack s ea ((s.getEntry ea).logger) severityNotice m 2 env helg hmE hstkE,
    plainEmit_noStack s ea ((s.getEntry ea).logger) severityNotice m 2 env helg hmE hstkE,
    plainEmit_noStack s ea ((s.getEntry ea).logger) severityWarn m 2 env helg hmE hstkE,
    plainEmit_noStack s ea ((s.getEntry ea).logger) severityWarn m 2 env helg hmE hstkE⟩,
   ⟨plainEmit_noStack s base la severityDebug m 2 env hla hmB hstkB,
    plainEmit_noStack s base la severityDebug m 2 env hla hmB hstkB,
    plainEmit_noStack s base la severityInfo m 2 env hla hmB hstkB,
    plainEmit_noStack s base la severityInfo m 2 env hla hmB hstkB,
    plainEmit_noStack s base la severityNotice m 2 env hla hmB hstkB,
    plainEmit_noStack s base la severityNotice m 2 env hla hmB hstkB,
    plainEmit_noStack s base la severityWarn m 2 env hla hmB hstkB,
    plainEmit_noStack s base la severityWarn m 2 env hla hmB hstkB⟩,
   ⟨plainEmit_noStack s base std severityDebug m 2 env hstd hmB hstkB,
    plainEmit_noStack s base std severityDebug m 2 env hstd hmB hstkB,
    plainEmit_noStack s base std severityInfo m 2 env hstd hmB hstkB,
    plainEmit_noStack s base std severityInfo m 2 env hstd hmB hstkB,
    plainEmit_noStack s base std severityNotice m 2 env hstd hmB hstkB,
    plainEmit_noStack s base std severityNotice m 2 env hstd hmB hstkB,
    plainEmit_noStack s base std severityWarn m 2 env hstd hmB hstkB,
    plainEmit_noStack s base std severityWarn m 2 env hstd hmB hstkB⟩⟩

theorem c4_error_severities_witness :
    (std < initState.loggers.length ∧
     runtimeCallers deepEnv 3 16 ≠ [] ∧
     (initState.getEntry base).stack = []) ∧
    EmitsWithStack initState std (Error initState "boom" deepEnv) ∧
    EmitsNoStack initState std (Info initState "boom" deepEnv) :=
  ⟨⟨by decide, by decide, by decide⟩,
   (c4_error_severities_capture_stack initState 0 0 "boom" deepEnv (by decide)
     (by decide) (by decide) (by decide) (by decide) (by decide) (by decide)
     (by decide)).2.2.1.1,
   (c4_error_severities_capture_stack initState 0 0 "boom" deepEnv (by decide)
     (by decide) (by decide) (by decide) (by decide) (by decide) (by decide)
     (by decide)).2.2.2.2.2.2.2.1⟩

/-- Refutes C10 for the error-level severity methods: Entry.Error logs a
stack-capturing clone, so after it returns the receiver entry is exactly as
before — its severity field does not hold the just-emitted ERROR severity —
even though one record with that severity and message was emitted. -/
theorem c10_error_methods_counterexample :
    (Entry.Error initState 0 "boom" deepEnv).getEntry 0 =
      initState.getEntry 0 ∧
    (initState.getEntry 0).sev ≠ severityError ∧
    ((Entry.Error initState 0 "boom" deepEnv).getLogger 0).out.map
        (fun r => (r.severity, r.message)) =
      [(some severityError, "boom")] := by decide

/-- C10 (amended): the DEBUG, INFO, NOTICE and WARNING severity methods
mutate the receiver entry in place — after the call the receiver holds the
emitted severity, message, source location and stack trace, all other
fields unchanged — and Logger-level and package-level calls write these
fields onto the single shared default entry base.  The ERROR, CRITICAL,
ALERT and EMERGENCY methods instead log a stack-capturing clone and leave
the receiver (and base) exactly as before the call. -/
theorem c10_emission_frame_effect (s : State) (ea la : Nat) (m : String)
    (env : RuntimeEnv) (hea : ea < s.entries.length)
    (hbase : base < s.entries.length) :
    ((Entry.Debug s ea m env).getEntry ea =
        logEntry s (s.getEntry ea).logger ea severityDebug m 2 env ∧
     (Entry.Info s ea m env).getEntry ea =
        logEntry s (s.getEntry ea).logger ea severityInfo m 2 env ∧
     (Entry.Notice s ea m env).getEntry ea =
        logEntry s (s.getEntry ea).logger ea severityNotice m 2 env ∧
     (Entry.Warn s ea m env).getEntry ea =
        logEntry s (s.getEntry ea).logger ea severityWarn m 2 env) ∧
    ((Logger.Debug s la m env).getEntry base =
        logEntry s la base severityDebug m 2 env ∧
     (Debug s m env).getEntry base =
        logEntry s std base severityDebug m 2 env) ∧
    (∀ lb sv, (logEntry s lb ea sv m 2 env).sev = sv ∧
       (logEntry s lb ea sv m 2 env).message = m ∧
       (logEntry s lb ea sv m 2 env).sourceLocation = logSource s lb 2 env ∧
       (logEntry s lb ea sv m 2 env).stackTrace =
         logStackTrace (s.getEntry ea) m env ∧
       (logEntry s lb ea sv m 2 env).labels = (s.getEntry ea).labels ∧
       (logEntry s lb ea sv m 2 env).details = (s.getEntry ea).details ∧
       (logEntry s lb ea sv m 2 env).operation = (s.getEntry ea).operation) ∧
    ((Entry.Error s ea m env).getEntry ea = s.getEntry ea ∧
     (Entry.Critical s ea m env).getEntry ea = s.getEntry ea ∧
     (Entry.Alert s ea m env).getEntry ea = s.getEntry ea ∧
     (Entry.Emergency s ea m env).getEntry ea = s.getEntry ea ∧
     (Logger.Error s la m env).getEntry base = s.getEntry base ∧
     (Error s m env).getEntry base = s.getEntry base) :=
  ⟨⟨log_getEntry s ((s.getEntry ea).logger) ea severityDebug m 2 env hea,
    log_getEntry s ((s.getEntry ea).logger) ea severityInfo m 2 env hea,
    log_getEntry s ((s.getEntry ea).logger) ea severityNotice m 2 env hea,
    log_getEntry s ((s.getEntry ea).logger) ea severityWarn m 2 env hea⟩,
   ⟨log_getEntry s la base severityDebug m 2 env hbase,
    log_getEntry s std base severityDebug m 2 env hbase⟩,
   fun _ _ => ⟨rfl, rfl, rfl, rfl, rfl, rfl, rfl⟩,
   ⟨errorMethod_receiver_frame s ea ((s.getEntry ea).logger) severityError m env hea,
    errorMethod_receiver_frame s ea ((s.getEntry ea).logger) severityCritical m env hea,
    errorMethod_receiver_frame s ea ((s.getEntry ea).logger) severityAlert m env hea,
    errorMethod_receiver_frame s ea ((s.getEntry ea).logger) severityEmergency m env hea,
    errorMethod_receiver_frame s base la severityError m env hbase,
    errorMethod_receiver_frame s base std severityError m env hbase⟩⟩

theorem c10_emission_frame_witness :
    (0 < initState.entries.length ∧ base < initState.entries.length) ∧
    (Entry.Debug initState 0 "m" emptyEnv).getEntry 0 =
      logEntry initState (initState.getEntry 0).logger 0 severityDebug "m" 2
        emptyEnv ∧
    (Entry.Error initState 0 "m" emptyEnv).getEntry 0 =
      initState.getEntry 0 :=
  ⟨⟨by decide, by decide⟩,
   (c10_emission_frame_effect initState 0 0 "m" emptyEnv (by decide)
     (by decide)).1.1,
   (c10_emission_frame_effect initState 0 0 "m" emptyEnv (by decide)
     (by decide)).2.2.2.1⟩

end Slog

namespace Config

/-- C7, modelled from the spec: when the flag set has not yet parsed and at
least one defined flag has a same-named upper-cased environment variable
whose value fails to parse, parseFlagSet returns the flag set unchanged (no
override is applied at all, never a partial batch) together with an
aggregated error that lists exactly the failing flags: a pair (n, c) is in
the returned error list precisely when some defined flag named n has an
environment override v that its parser rejects and c is the recorded cause
for v.  parseFlagSet is a total function, so it never panics. -/
theorem c7_override_failure_fails_whole_batch (env : Env) (fs : FlagSet)
    (hp : fs.parsed = false) (hne : overrideErrors env fs ≠ []) :
    (parseFlagSet env fs).1 = fs ∧
    (parseFlagSet env fs).2 = some (overrideErrors env fs) ∧
    (∀ n c, (n, c) ∈ overrideErrors env fs ↔
      ∃ f ∈ fs.flags, ∃ v, f.name = n ∧
        envLookup env (upper f.name) = some v ∧ f.parse v = none ∧
        c = failCause v) := by
  have he : (overrideErrors env fs).isEmpty = false := by
    rcases h : overrideErrors env fs with _ | ⟨a, l⟩
    · exact absurd h hne
    · rfl
  have hps : parseFlagSet env fs = (fs, some (overrideErrors env fs)) := by
    simp only [parseFlagSet, hp, he, Bool.false_eq_true, if_false]
  refine ⟨by rw [hps], by rw [hps], ?_⟩
  intro n c
  simp only [overrideErrors, List.mem_filterMap]
  constructor
  · rintro ⟨f, hf, hg⟩
    rcases hv : envLookup env (upper f.name) with _ | v
    · simp only [hv] at hg
      exact Option.noConfusion hg
    · simp only [hv] at hg
      rcases hpv : f.parse v with _ | pv
      · simp only [hpv, Option.some_inj] at hg
        exact ⟨f, hf, v, congrArg Prod.fst hg, hv, hpv,
          (congrArg Prod.snd hg).symm⟩
      · simp only [hpv] at hg
        exact Option.noConfusion hg
  · rintro ⟨f, hf, v, hn, hv, hpv, hc⟩
    refine ⟨f, hf, ?_⟩
    simp only [hv, hpv]
    rw [hn, hc]

theorem c7_override_failure_witness :
    (portFlagSet.parsed = false ∧ overrideErrors badEnv portFlagSet ≠ []) ∧
    (parseFlagSet badEnv portFlagSet).1 = portFlagSet ∧
    (parseFlagSet badEnv portFlagSet).2 =
      some (overrideErrors badEnv portFlagSet) :=
  ⟨⟨rfl, by decide⟩,
   (c7_override_failure_fails_whole_batch badEnv portFlagSet rfl (by decide)).1,
   (c7_override_failure_fails_whole_batch badEnv portFlagSet rfl
     (by decide)).2.1⟩

end Config

namespace Mutex

/-- The mutual-exclusion invariant of every configuration reachable from
init: some list done of finished goroutines, in completion order, accounts
for the whole sink contents; every other goroutine either has not started
(its entire program remains, so its next action is taking the lock) or is
the current lock owner part way through its writes, with the sink holding
exactly the finished records followed by the owner's partial record. -/
def Inv (rs : List (List Char)) (cf : Conf) : Prop :=
  cf.progs.length = rs.length ∧
  ∃ done : List Nat,
    done.Nodup ∧ (∀ t ∈ done, t < rs.length) ∧
    (∀ t, t < rs.length → t ∉ done → cf.owner ≠ some t →
      cf.progs.getD t [] = emitProg (rs.getD t [])) ∧
    (∀ t ∈ done, cf.progs.getD t [] = []) ∧
    (match cf.owner with
     | none => cf.out = (done.map (threadRec rs)).flatten
     | some t => t < rs.length ∧ t ∉ done ∧
        ∃ k, k ≤ (rs.getD t []).length ∧
          cf.progs.getD t [] =
            ((rs.getD t []).drop k).map Act.write ++ [Act.unlock] ∧
          cf.out = (done.map (threadRec rs)).flatten ++ (rs.getD t []).take k)

theorem getD_map_emit (rs : List (List Char)) (t : Nat) (h : t < rs.length) :
    (rs.map emitProg).getD t [] = emitProg (rs.getD t []) := by
  simp [List.getD, List.getElem?_map, List.getElem?_eq_getElem h]

theorem inv_init (rs : List (List Char)) : Inv rs (init rs) := by
  refine ⟨by simp [init], [], List.nodup_nil, by simp, ?_, by simp, by simp [init]⟩
  intro t ht _ _
  exact getD_map_emit rs t ht

theorem inv_step (rs : List (List Char)) (a b : Conf) (ha : Inv rs a)
    (hs : SchedStep a b) : Inv rs b := by
  obtain ⟨t, hstep⟩ := hs
  obtain ⟨hlen, done, hnd, hdlt, hfresh, hdn, hown⟩ := ha
  rcases hp : a.progs.getD t [] with _ | ⟨act, rest⟩
  · rw [step, hp] at hstep
    exact Option.noConfusion hstep
  have htlen : t < rs.length := by
    by_contra hge
    have hd : a.progs.getD t [] = [] := by
      apply List.getD_eq_default
      omega
    rw [hp] at hd
    exact List.noConfusion hd
  have htpl : t < a.progs.length := by omega
  cases act with
  | lock =>
    rcases ho : a.owner with _ | u
    · rw [step, hp, ho] at hstep
      have hb : b = { a with progs := a.progs.set t rest, owner := some t } :=
        (Option.some_inj.mp hstep).symm
      subst hb
      have htnd : t ∉ done := by
        intro hmem
        have hx := hdn t hmem
        rw [hp] at hx
        exact List.noConfusion hx
      have hful : a.progs.getD t [] = emitProg (rs.getD t []) :=
        hfresh t htlen htnd (by rw [ho]; exact fun h => Option.noConfusion h)
      have hrest : rest = (rs.getD t []).map Act.write ++ [Act.unlock] := by
        rw [hp] at hful
        simp only [emitProg] at hful
        injection hful with h1 h2
      have hout : a.out = (done.map (threadRec rs)).flatten := by
        rw [ho] at hown
        exact hown
      refine ⟨by simpa using hlen, done, hnd, hdlt, ?_, ?_, ?_⟩
      · intro u hu hud hu2
        have hut : u ≠ t := fun he => hu2 (by rw [he])
        show (a.progs.set t rest).getD u [] = emitProg (rs.getD u [])
        rw [Slog.getD_set_ne _ _ _ _ _ (fun h => hut h.symm)]
        exact hfresh u hu hud (by rw [ho]; exact fun h => Option.noConfusion h)
      · intro u hu
        have hut : u ≠ t := fun he => htnd (he ▸ hu)
        show (a.progs.set t rest).getD u [] = []
        rw [Slog.getD_set_ne _ _ _ _ _ (fun h => hut h.symm)]
        exact hdn u hu
      · refine ⟨htlen, htnd, 0, Nat.zero_le _, ?_, ?_⟩
        · show (a.progs.set t rest).getD t [] =
            ((rs.getD t []).drop 0).map Act.write ++ [Act.unlock]
          rw [Slog.getD_set_lt _ _ _ _ htpl, hrest]
          simp
        · show a.out = (done.map (threadRec rs)).flatten ++ (rs.getD t []).take 0
          simpa using hout
    · rw [step, hp, ho] at hstep
      exact Option.noConfusion hstep
  | write c =>
    rw [step, hp] at hstep
    have hb : b = { a with progs := a.progs.set t rest, out := a.out ++ [c] } :=
      (Option.some_inj.mp hstep).symm
    subst hb
    rcases ho : a.owner with _ | u
    · exfalso
      have htnd : t ∉ done := by
        intro hmem
        have hx := hdn t hmem
        rw [hp] at hx
        exact List.noConfusion hx
      have hful := hfresh t htlen htnd
        (by rw [ho]; exact fun h => Option.noConfusion h)
      rw [hp] at hful
      simp only [emitProg] at hful
      injection hful with h1 h2
      exact Act.noConfusion h1
    · rw [ho] at hown
      obtain ⟨hult, hund, k, hk, hprog, hout⟩ := hown
      have hut : t = u := by
        by_contra hne
        have htnd : t ∉ done := by
          intro hmem
          have hx := hdn t hmem
          rw [hp] at hx
          exact List.noConfusion hx
        have hful := hfresh t htlen htnd
          (by rw [ho]; intro h; exact hne (Option.some_inj.mp h).symm)
        rw [hp] at hful
        simp only [emitProg] at hful
        injection hful with h1 h2
        exact Act.noConfusion h1
      subst hut
      rw [hp] at hprog
      have hklt : k < (rs.getD t []).length := by
        by_contra hge
        have hdk : (rs.getD t []).drop k = [] := List.drop_eq_nil_of_le (by omega)
        rw [hdk] at hprog
        simp only [List.map_nil, List.nil_append] at hprog
        injection hprog with h1 h2
        exact Act.noConfusion h1
      have hdropk : (rs.getD t []).drop k =
          (rs.getD t []).get ⟨k, hklt⟩ :: (rs.getD t []).drop (k + 1) :=
        List.drop_eq_getElem_cons hklt
      rw [hdropk] at hprog
      simp only [List.map_cons, List.cons_append] at hprog
      injection hprog with h1 h2
      injection h1 with hc
      have htake : (rs.getD t []).take (k + 1) =
          (rs.getD t []).take k ++ [(rs.getD t []).get ⟨k, hklt⟩] := by
        rw [List.take_succ, List.getElem?_eq_getElem hklt]
        rfl
      refine ⟨by simpa using hlen, done, hnd, hdlt, ?_, ?_, ?_⟩
      · intro v hv hvd hv2
        have hvt : v ≠ t := fun he => hv2 (by rw [he])
        show (a.progs.set t rest).getD v [] = emitProg (rs.getD v [])
        rw [Slog.getD_set_ne _ _ _ _ _ (fun h => hvt h.symm)]
        exact hfresh v hv hvd
          (by rw [ho]; intro h; exact hvt (Option.some_inj.mp h).symm)
      · intro v hv
        have hvt : v ≠ t := fun he => hund (he ▸ hv)
        show (a.progs.set t rest).getD v [] = []
        rw [Slog.getD_set_ne _ _ _ _ _ (fun h => hvt h.symm)]
        exact hdn v hv
      · refine ⟨hult, hund, k + 1, hklt, ?_, ?_⟩
        · show (a.progs.set t rest).getD t [] =
            ((rs.getD t []).drop (k + 1)).map Act.write ++ [Act.unlock]
          rw [Slog.getD_set_lt _ _ _ _ htpl, h2]
        · show a.out ++ [c] =
            (done.map (threadRec rs)).flatten ++ (rs.getD t []).take (k + 1)
          rw [hout, htake, hc]
          simp
  | unlock =>
    rw [step, hp] at hstep
    have hb : b = { a with progs := a.progs.set t rest, owner := none } :=
      (Option.some_inj.mp hstep).symm
    subst hb
    rcases ho : a.owner with _ | u
    · exfalso
      have htnd : t ∉ done := by
        intro hmem
        have hx := hdn t hmem
        rw [hp] at hx
        exact List.noConfusion hx
      have hful := hfresh t htlen htnd
        (by rw [ho]; exact fun h => Option.noConfusion h)
      rw [hp] at hful
      simp only [emitProg] at hful
      injection hful with h1 h2
      exact Act.noConfusion h1
    · rw [ho] at hown
      obtain ⟨hult, hund, k, hk, hprog, hout⟩ := hown
      have hut : t = u := by
        by_contra hne
        have htnd : t ∉ done := by
          intro hmem
          have hx := hdn t hmem
          rw [hp] at hx
          exact List.noConfusion hx
        have hful := hfresh t htlen htnd
          (by rw [ho]; intro h; exact hne (Option.some_inj.mp h).symm)
        rw [hp] at hful
        simp only [emitProg] at hful
        injection hful with h1 h2
        exact Act.noConfusion h1
      subst hut
      rw [hp] at hprog
      have hdk : (rs.getD t []).drop k = [] := by
        rcases hd : (rs.getD t []).drop k with _ | ⟨x, xs⟩
        · rfl
        · rw [hd] at hprog
          simp only [List.map_cons, List.cons_append] at hprog
          injection hprog with h1 h2
          exact Act.noConfusion h1
      have hkeq : k = (rs.getD t []).length := by
        have hle := List.drop_eq_nil_iff.mp hdk
        omega
      have hrest : rest = [] := by
        rw [hdk] at hprog
        simpa using hprog
      have htake : (rs.getD t []).take k = rs.getD t [] := by
        rw [hkeq]
        exact List.take_length _
      refine ⟨by simpa using hlen, done ++ [t], ?_, ?_, ?_, ?_, ?_⟩
      · exact List.Nodup.append hnd (List.nodup_singleton t)
          (fun x hx hx2 => hund ((List.mem_singleton.mp hx2) ▸ hx))
      · intro v hv
        rcases List.mem_append.mp hv with h | h
        · exact hdlt v h
        · rw [List.mem_singleton.mp h]
          exact hult
      · intro v hv hvd _
        have hvt : v ≠ t := fun he =>
          hvd (List.mem_append.mpr (Or.inr (he ▸ List.mem_singleton_self t)))
        have hvdone : v ∉ done := fun hm => hvd (List.mem_append.mpr (Or.inl hm))
        show (a.progs.set t rest).getD v [] = emitProg (rs.getD v [])
        rw [Slog.getD_set_ne _ _ _ _ _ (fun h => hvt h.symm)]
        exact hfresh v hv hvdone
          (by rw [ho]; intro h; exact hvt (Option.some_inj.mp h).symm)
      · intro v hv
        rcases List.mem_append.mp hv with h | h
        · have hvt : v ≠ t := fun he => hund (he ▸ h)
          show (a.progs.set t rest).getD v [] = []
          rw [Slog.getD_set_ne _ _ _ _ _ (fun h => hvt h.symm)]
          exact hdn v h
        · rw [List.mem_singleton.mp h]
          show (a.progs.set t rest).getD t [] = []
          rw [Slog.getD_set_lt _ _ _ _ htpl, hrest]
      · show a.out = ((done ++ [t]).map (threadRec rs)).flatten
        rw [hout, htake]
        simp [threadRec]

theorem inv_reach (rs : List (List Char)) (cf : Conf)
    (h : Relation.ReflTransGen SchedStep (init rs) cf) : Inv rs cf := by
  induction h with
  | refl => exact inv_init rs
  | tail hab hbc ih => exact inv_step rs _ _ ih hbc

/-- C9: when one goroutine per record in rs concurrently emits through one
Logger, every schedule the mutex admits that runs all goroutines to
completion leaves the sink holding exactly the whole records, one after
another in some order: the output is the concatenation of the records in a
permutation of their thread order, so no line is a byte-level merge of two
records. -/
theorem c9_concurrent_emission_no_interleaving (rs : List (List Char))
    (cf : Conf) (hreach : Relation.ReflTransGen SchedStep (init rs) cf)
    (hdone : allDone cf = true) :
    ∃ order : List Nat, order.Perm (List.range rs.length) ∧
      cf.out = (order.map (threadRec rs)).flatten := by
  obtain ⟨hlen, done, hnd, hdlt, hfresh, hdn, hown⟩ := inv_reach rs cf hreach
  simp only [allDone, List.all_eq_true] at hdone
  have hall : ∀ t, t < rs.length → cf.progs.getD t [] = [] := by
    intro t ht
    have ht' : t < cf.progs.length := by omega
    have hmem : cf.progs.getD t [] ∈ cf.progs := by
      rw [List.getD_eq_getElem cf.progs [] ht']
      exact List.getElem_mem ht'
    exact List.isEmpty_iff.mp (hdone _ hmem)
  rcases ho : cf.owner with _ | u
  · rw [ho] at hown
    have hcov : ∀ t, t < rs.length → t ∈ done := by
      intro t ht
      by_contra hnm
      have hx := hfresh t ht hnm (by rw [ho]; exact fun h => Option.noConfusion h)
      rw [hall t ht] at hx
      simp only [emitProg] at hx
      exact List.noConfusion hx
    have hperm : done.Perm (List.range rs.length) := by
      rw [List.perm_ext_iff_of_nodup hnd (List.nodup_range _)]
      intro v
      constructor
      · exact fun h => List.mem_range.mpr (hdlt v h)
      · exact fun h => hcov v (List.mem_range.mp h)
    exact ⟨done, hperm, hown⟩
  · exfalso
    rw [ho] at hown
    obtain ⟨hult, _, k, _, hprog, _⟩ := hown
    rw [hall u hult] at hprog
    exact absurd hprog.symm (by simp)

theorem c9_concurrent_emission_witness :
    allDone { progs := [[], []], owner := none, out := ['c', 'a', 'b'] } = true ∧
    ∃ order : List Nat,
      order.Perm (List.range ([['a', 'b'], ['c']] : List (List Char)).length) ∧
      ({ progs := [[], []], owner := none, out := ['c', 'a', 'b'] } : Conf).out =
        (order.map (threadRec [['a', 'b'], ['c']])).flatten := by
  refine ⟨by decide, ?_⟩
  have s1 : SchedStep (init [['a', 'b'], ['c']])
      { progs := [[Act.lock, Act.write 'a', Act.write 'b', Act.unlock],
                  [Act.write 'c', Act.unlock]],
        owner := some 1, out := [] } := ⟨1, by decide⟩
  have s2 : SchedStep
      { progs := [[Act.lock, Act.write 'a', Act.write 'b', Act.unlock],
                  [Act.write 'c', Act.unlock]],
        owner := some 1, out := [] }
      { progs := [[Act.lock, Act.write 'a', Act.write 'b', Act.unlock],
                  [Act.unlock]],
        owner := some 1, out := ['c'] } := ⟨1, by decide⟩
  have s3 : SchedStep
      { progs := [[Act.lock, Act.write 'a', Act.write 'b', Act.unlock],
                  [Act.unlock]],
        owner := some 1, out := ['c'] }
      { progs := [[Act.lock, Act.write 'a', Act.write 'b', Act.unlock], []],
        owner := none, out := ['c'] } := ⟨1, by decide⟩
  have s4 : SchedStep
      { progs := [[Act.lock, Act.write 'a', Act.write 'b', Act.unlock], []],
        owner := none, out := ['c'] }
      { progs := [[Act.write 'a', Act.write 'b', Act.unlock], []],
        owner := some 0, out := ['c'] } := ⟨0, by decide⟩
  have s5 : SchedStep
      { progs := [[Act.write 'a', Act.write 'b', Act.unlock], []],
        owner := some 0, out := ['c'] }
      { progs := [[Act.write 'b', Act.unlock], []],
        owner := some 0, out := ['c', 'a'] } := ⟨0, by decide⟩
  have s6 : SchedStep
      { progs := [[Act.write 'b', Act.unlock], []],
        owner := some 0, out := ['c', 'a'] }
      { progs := [[Act.unlock], []],
        owner := some 0, out := ['c', 'a', 'b'] } := ⟨0, by decide⟩
  have s7 : SchedStep
      { progs := [[Act.unlock], []],
        owner := some 0, out := ['c', 'a', 'b'] }
      { progs := [[], []], owner := none, out := ['c', 'a', 'b'] } :=
    ⟨0, by decide⟩
  exact c9_concurrent_emission_no_interleaving [['a', 'b'], ['c']]
    { progs := [[], []], owner := none, out := ['c', 'a', 'b'] }
    ((((((((Relation.ReflTransGen.refl).tail s1).tail s2).tail s3).tail
      s4).tail s5).tail s6).tail s7)
    (by decide)

end Mutex

end Tau
